import Mathlib

/-!
Verification of the data normalization, cleaning, analysis and alerting engine of
`ali_business_analyzer.py` (class `AliBusinessAnalyzer`), via a shallow embedding.

Modelling conventions:
* A pandas `DataFrame` is a `Dataset`: a list of column names plus rows, each row an
  association list from column name to `Cell`.
* A cell is a string, an (idealized, unbounded) integer number, a date-only timestamp
  (`pd.Timestamp` values produced by the cleaning pipeline carry no time of day), or
  the missing-value marker `null` (NaN/NaT/None).
* Timestamps in alert logic (`datetime.now()`) are integers counting seconds since
  1970-01-01; calendar dates are year/month/day triples converted with the standard
  civil-calendar day-numbering algorithm.
* `pd.to_datetime` is modelled on the value grammar that actually reaches it in this
  program: date-only cells, numeric cells (nanoseconds since the epoch), the canonical
  `"YYYY/MM/DD"` strings produced by `_convert_date_format`, and the empty string
  (treated as missing).  Pandas timestamp range limits are idealized away.
-/

/-- A calendar date (year, month, day). -/
structure Ymd where
  year : Int
  month : Nat
  day : Nat
deriving DecidableEq, Repr

/-- Day count since 1970-01-01 for a civil date (standard civil-from-days algorithm,
truncated integer division on the adjusted non-negative operands, as in the usual
C++ formulation that pandas' timestamp arithmetic agrees with). -/
def daysFromCivil (t : Ymd) : Int :=
  let y : Int := if t.month ≤ 2 then t.year - 1 else t.year
  let era : Int := (if 0 ≤ y then y else y - 399) / 400
  let yoe : Int := y - era * 400
  let mp : Int := if 2 < t.month then (t.month : Int) - 3 else (t.month : Int) + 9
  let doy : Int := (153 * mp + 2) / 5 + (t.day : Int) - 1
  let doe : Int := yoe * 365 + yoe / 4 - yoe / 100 + doy
  era * 146097 + doe - 719468

/-- Inverse of `daysFromCivil`: the civil date of a day count since 1970-01-01. -/
def civilFromDays (z0 : Int) : Ymd :=
  let z : Int := z0 + 719468
  let era : Int := (if 0 ≤ z then z else z - 146096) / 146097
  let doe : Int := z - era * 146097
  let yoe : Int := (doe - doe / 1461 + doe / 36524 - doe / 146096) / 365
  let y : Int := yoe + era * 400
  let doy : Int := doe - (365 * yoe + yoe / 4 - yoe / 100)
  let mp : Int := (5 * doy + 2) / 153
  let d : Int := doy - (153 * mp + 2) / 5 + 1
  let m : Int := if mp < 10 then mp + 3 else mp - 9
  ⟨if m ≤ 2 then y + 1 else y, m.toNat, d.toNat⟩

/-- Gregorian leap-year test. -/
def isLeapYear (y : Int) : Bool :=
  (y % 4 == 0 && y % 100 != 0) || y % 400 == 0

/-- Number of days in a month of a given year. -/
def daysInMonth (y : Int) (m : Nat) : Nat :=
  if m = 2 then (if isLeapYear y then 29 else 28)
  else if m = 4 ∨ m = 6 ∨ m = 9 ∨ m = 11 then 30
  else 31

/-- Validity of a year/month/day triple as a calendar date. -/
def validYmd (t : Ymd) : Bool :=
  1 ≤ t.month && t.month ≤ 12 && 1 ≤ t.day && t.day ≤ daysInMonth t.year t.month

/-- Excel-serial conversion used by `_clean_data`: the date obtained as
`pd.to_datetime('1899-12-30') + pd.Timedelta(days=x)`. -/
def serialToDate (x : Int) : Ymd :=
  civilFromDays (daysFromCivil ⟨1899, 12, 30⟩ + x)

/-- Zero-padded two-digit rendering of a number below 100 (strftime `%m`, `%d`). -/
def pad2 (n : Nat) : String :=
  if n < 10 then "0" ++ toString n else toString n

/-- Zero-padded four-digit rendering (strftime `%Y` for in-range years). -/
def pad4 (n : Nat) : String :=
  if n < 10 then "000" ++ toString n
  else if n < 100 then "00" ++ toString n
  else if n < 1000 then "0" ++ toString n
  else toString n

/-- The canonical date rendering `strftime('%Y/%m/%d')` used by `_convert_date_format`. -/
def formatYmd (t : Ymd) : String :=
  pad4 t.year.toNat ++ "/" ++ pad2 t.month ++ "/" ++ pad2 t.day

/-- ISO date-with-time rendering, the `str()` of a date-only `pd.Timestamp`. -/
def isoStrYmd (t : Ymd) : String :=
  pad4 t.year.toNat ++ "-" ++ pad2 t.month ++ "-" ++ pad2 t.day ++ " 00:00:00"

/-- Split a character list on a separator character. -/
def splitOnChar (sep : Char) : List Char → List (List Char)
  | [] => [[]]
  | c :: cs =>
    let rest := splitOnChar sep cs
    if c = sep then [] :: rest
    else match rest with
      | [] => [[c]]
      | g :: gs => (c :: g) :: gs

/-- Digits-only numeral reading of a character list. -/
def digitsToNat? (cs : List Char) : Option Nat :=
  if cs ≠ [] && cs.all Char.isDigit then
    some (cs.foldl (fun acc c => acc * 10 + (c.toNat - 48)) 0)
  else none

/-- Date-text parsing of a slash-separated `Y/M/D` string, the fragment of pandas'
date parser exercised by the canonical strings this program produces.  Other textual
date formats never occur in cleaned data and are modelled as unparsable. -/
def parseDate (s : String) : Option Ymd :=
  match (splitOnChar '/' s.toList).map digitsToNat? with
  | [some y, some m, some d] =>
    let t : Ymd := ⟨(y : Int), m, d⟩
    if validYmd t then some t else none
  | _ => none

/-- A string is a canonical date string when it parses and re-renders to itself. -/
def isCanonicalDateStr (s : String) : Bool :=
  match parseDate s with
  | some t => formatYmd t == s
  | none => false

/-- One DataFrame cell. -/
inductive Cell where
  | str : String → Cell
  | num : Int → Cell
  | date : Ymd → Cell
  | null : Cell
deriving DecidableEq, Repr

/-- One DataFrame row: column name to cell. -/
abbrev Row := List (String × Cell)

/-- A DataFrame: its column list and its rows. -/
structure Dataset where
  cols : List String
  rows : List Row
deriving DecidableEq, Repr

/-- Reading a field of a row (`row.get(col)` / `row[col]`); missing keys give the
missing-value marker, as `Series.get` with a NaN default does. -/
def rowGet (r : Row) (c : String) : Cell :=
  match r.find? (fun p => p.1 == c) with
  | some p => p.2
  | none => Cell.null

/-- The cells of one column (`df[col]`). -/
def colCells (d : Dataset) (c : String) : List Cell :=
  d.rows.map (fun r => rowGet r c)

/-- Seconds-since-epoch of a date-only timestamp's midnight. -/
def dateSec (t : Ymd) : Int := 86400 * daysFromCivil t

/-- Scalar `pd.to_datetime` on a cell, reduced to date precision.  Timestamps pass
through; strings parse by `parseDate` with the empty string missing; numbers are
nanoseconds since the epoch; missing stays missing. -/
def parseCellDate (c : Cell) : Option Ymd :=
  match c with
  | Cell.date t => some t
  | Cell.str s => if s = "" then none else parseDate s
  | Cell.num x => some (civilFromDays (Int.fdiv x 86400000000000))
  | Cell.null => none

/-- Python `str()` of a cell (`str(row.get(...))`): NaN prints as `nan`. -/
def cellToStr (c : Cell) : String :=
  match c with
  | Cell.str s => s
  | Cell.num x => toString x
  | Cell.date t => isoStrYmd t
  | Cell.null => "nan"

/-- Elementwise equality of a cell against a Python string (`df[col] == 'X'`):
only equal strings compare equal, NaN compares unequal. -/
def cellEqStr (c : Cell) (s : String) : Bool :=
  match c with
  | Cell.str t => t == s
  | _ => false

/-- Lower-casing (Python `str.lower()`; ASCII letters, identity on CJK text). -/
def strLower (s : String) : String :=
  String.mk (s.toList.map Char.toLower)

/-- Whitespace trimming (Python `str.strip()`). -/
def strTrim (s : String) : String :=
  String.mk ((s.toList.dropWhile Char.isWhitespace).reverse.dropWhile Char.isWhitespace |>.reverse)

/-- Substring containment, Python's `pat in s`. -/
def strContains (s pat : String) : Bool :=
  (s.toList.tails).any (fun suf => pat.toList.isPrefixOf suf)

-- Sanity checks of the calendar and parsing layer.
example : serialToDate 25569 = ⟨1970, 1, 1⟩ := by decide
example : serialToDate 1 = ⟨1899, 12, 31⟩ := by decide
example : parseDate "2024/03/05" = some ⟨2024, 3, 5⟩ := by decide
example : formatYmd ⟨2024, 3, 5⟩ = "2024/03/05" := by decide
example : isCanonicalDateStr "2024/03/05" = true := by decide
example : isCanonicalDateStr "2024/3/5" = false := by decide
example : strContains "big bulk order!" "bulk order" = true := by decide
example : strLower "OEM Time" = "oem time" := by decide

/-! ## Data Cleaner (`_clean_data`, `_convert_date_format`) -/

/-- The two date columns handled by the cleaner (`time_columns` / `date_columns`). -/
def timeCols : List String := ["询盘时间", "最后跟进时间"]

/-- Column dtype test `df[col].dtype in ['float64', 'int64']`: a column reads as
numeric when every cell is a number or missing. -/
def isNumericDtype (cells : List Cell) : Bool :=
  cells.all (fun c => match c with
    | Cell.num _ => true
    | Cell.null => true
    | _ => false)

/-- The non-null numeric values of a column (`df[col].dropna()`). -/
def nonNullNums (cells : List Cell) : List Int :=
  cells.filterMap (fun c => match c with
    | Cell.num x => some x
    | _ => none)

/-- Minimum of a list of integers (`Series.min()`), none when empty. -/
def minNum? (l : List Int) : Option Int :=
  l.foldl (fun acc x => match acc with
    | none => some x
    | some m => some (min m x)) none

/-- The Excel-serial branch of `_clean_data`:
`lambda x: pd.to_datetime('1899-12-30') + pd.Timedelta(days=x) if pd.notna(x) and x > 0 else None`. -/
def serialCellFun (c : Cell) : Cell :=
  match c with
  | Cell.num x => if 0 < x then Cell.date (serialToDate x) else Cell.null
  | _ => Cell.null

/-- `pd.to_datetime(df[col], errors='coerce')` on one cell. -/
def coerceCellFun (c : Cell) : Cell :=
  match parseCellDate c with
  | some t => Cell.date t
  | none => Cell.null

/-- The per-cell transformation `_clean_data` applies to a date column, chosen from
the column's dtype and minimum: Excel-serial conversion when the column is numeric
with non-null minimum above 25568, otherwise coercing date parsing. -/
def cleanDateCellFun (cells : List Cell) : Cell → Cell :=
  if isNumericDtype cells then
    match minNum? (nonNullNums cells) with
    | some m => if 25568 < m then serialCellFun else coerceCellFun
    | none => coerceCellFun
  else coerceCellFun

/-- Replace the cells of one column (`df[col] = df[col].apply(f)`). -/
def colApply (d : Dataset) (c : String) (f : Cell → Cell) : Dataset :=
  ⟨d.cols, d.rows.map (fun r => r.map (fun p => if p.1 == c then (p.1, f p.2) else p))⟩

/-- The date-column pass of `_clean_data` over the present date columns. -/
def clean_data_dates (d : Dataset) : Dataset :=
  (timeCols.filter (fun c => c ∈ d.cols)).foldl
    (fun acc c => colApply acc c (cleanDateCellFun (colCells acc c))) d

/-- `df.fillna('')` on a single cell. -/
def fillnaCell (c : Cell) : Cell :=
  if c = Cell.null then Cell.str "" else c

/-- `df = df.fillna('')` over the whole frame. -/
def fillnaAll (d : Dataset) : Dataset :=
  ⟨d.cols, d.rows.map (fun r => r.map (fun p => (p.1, fillnaCell p.2)))⟩

/-- `df.drop_duplicates()` keeping the first occurrence of each duplicated element. -/
def dropDupsAux {α : Type} [DecidableEq α] (seen : List α) : List α → List α
  | [] => []
  | a :: as => if a ∈ seen then dropDupsAux seen as else a :: dropDupsAux (a :: seen) as

/-- `df.drop_duplicates()` over a list of rows. -/
def dropDuplicatesRows (rows : List Row) : List Row :=
  dropDupsAux [] rows

/-- Number of elements that duplicate an earlier element of the list: the number of
exact-duplicate pairs, pairing each later copy with its first occurrence. -/
def dupCountAux {α : Type} [DecidableEq α] (seen : List α) : List α → Nat
  | [] => 0
  | a :: as => if a ∈ seen then 1 + dupCountAux seen as else dupCountAux (a :: seen) as

/-- The rows of the frame as they reach the dedup step of `_clean_data`: date
columns parsed, then all missing values replaced by the empty string. -/
def pre_dedup (d : Dataset) : Dataset :=
  fillnaAll (clean_data_dates d)

/-- `_clean_data`: date-column handling, `fillna('')`, then `drop_duplicates()`. -/
def clean_data (d : Dataset) : Dataset :=
  let d2 := pre_dedup d
  ⟨d2.cols, dropDuplicatesRows d2.rows⟩

/-- The per-cell effect of `_convert_date_format` on a date column:
`pd.to_datetime(col, errors='coerce')`, `strftime('%Y/%m/%d')` on valid entries,
then `fillna('')`. -/
def convertCellFun (c : Cell) : Cell :=
  match parseCellDate c with
  | some t => Cell.str (formatYmd t)
  | none => Cell.str ""

/-- `_convert_date_format` over the present date columns. -/
def convert_date_format (d : Dataset) : Dataset :=
  (timeCols.filter (fun c => c ∈ d.cols)).foldl
    (fun acc c => colApply acc c convertCellFun) d

/-! ## Schema Normalizer (`_standardize_columns`) -/

/-- The fixed canonical column list `self.standard_columns`. -/
def standardColumns : List String :=
  ["询盘时间", "咨询方式", "跟进等级", "客户名称", "客户层级",
   "所属大洲", "国家", "询价产品", "产品ID", "跟进人",
   "备注 (失单原因+跟进机会点)", "最后跟进时间"]

/-- The ordered keyword groups of the `if/elif` matching chain in
`_standardize_columns`, each with its canonical target column. -/
def stdGroups : List (List String × String) :=
  [(["询盘", "时间", "inquiry", "time"], "询盘时间"),
   (["咨询", "方式", "contact", "method"], "咨询方式"),
   (["跟进", "等级", "level", "grade"], "跟进等级"),
   (["客户", "名称", "customer", "name"], "客户名称"),
   (["层级", "tier", "category"], "客户层级"),
   (["大洲", "continent"], "所属大洲"),
   (["国家", "country", "nation"], "国家"),
   (["产品", "product", "询价"], "询价产品"),
   (["id", "产品id"], "产品ID"),
   (["跟进人", "follower", "handler"], "跟进人"),
   (["备注", "remark", "note"], "备注 (失单原因+跟进机会点)"),
   (["最后", "last", "follow"], "最后跟进时间")]

/-- One pass of the `if/elif` chain for a single (lower-cased, trimmed) header:
the first group whose keywords match and whose canonical column is still unused. -/
def matchColumn (used : List String) (colLower : String) : Option String :=
  (stdGroups.find? (fun g =>
    g.1.any (fun kw => strContains colLower kw) && !(g.2 ∈ used))).map (fun g => g.2)

/-- The `column_mapping` built by `_standardize_columns`: each source header paired
with the canonical column it is renamed to, if any, threading the used-set. -/
def buildColumnMapping (cols : List String) : List (String × Option String) :=
  (cols.foldl (fun (acc : List (String × Option String) × List String) c =>
    match matchColumn acc.2 (strLower (strTrim c)) with
    | some std => (acc.1 ++ [(c, some std)], acc.2 ++ [std])
    | none => (acc.1 ++ [(c, none)], acc.2)) ([], [])).1

/-- Rename of one header under the computed mapping (`df.rename(columns=...)`). -/
def renameWith (mapping : List (String × Option String)) (c : String) : String :=
  match mapping.find? (fun p => p.1 == c) with
  | some (_, some std) => std
  | _ => c

/-- `_standardize_columns`: rename matching headers to canonical names, then append
every canonical column that is still missing, filled with the null marker. -/
def standardize_columns (d : Dataset) : Dataset :=
  let mapping := buildColumnMapping d.cols
  let renamedCols := d.cols.map (renameWith mapping)
  let renamedRows := d.rows.map (fun r => r.map (fun p => (renameWith mapping p.1, p.2)))
  let missing := standardColumns.filter (fun c => !(c ∈ renamedCols))
  ⟨renamedCols ++ missing,
   renamedRows.map (fun r => r ++ missing.map (fun c => (c, Cell.null)))⟩

/-- The canonical 12-column view of a normalized frame, the projection every
downstream consumer (analysis, alerts, export writers) reads. -/
def canonicalView (d : Dataset) : Dataset :=
  ⟨standardColumns,
   d.rows.map (fun r => standardColumns.map (fun c => (c, rowGet r c)))⟩

example :
    buildColumnMapping ["Last Follow-up Time", "Inquiry Time"] =
      [("Last Follow-up Time", some "询盘时间"), ("Inquiry Time", none)] := by decide

/-! ## Alert Engine (`get_smart_alerts` and the six detectors) -/

/-- An alert.  The source emits dicts with `type`, `priority`, `category`, rendered
`message`/`suggestion` text and detector-specific payload fields; the embedding keeps
the `type` tag and `priority`, the fields the verified properties are about. -/
structure Alert where
  atype : String
  priority : String
deriving DecidableEq, Repr

/-- `priority_order = {'high': 0, 'medium': 1, 'low': 2}` with `.get(priority, 3)`. -/
def priorityKey (p : String) : Nat :=
  if p == "high" then 0 else if p == "medium" then 1 else if p == "low" then 2 else 3

/-- Sort key of an alert. -/
def alertKey (a : Alert) : Nat := priorityKey a.priority

/-- Stable insertion of an element into a list sorted by an integer key: placed
before the first element of equal or larger key. -/
def stableInsertBy {α : Type} (key : α → Int) (a : α) : List α → List α
  | [] => [a]
  | b :: bs => if key a ≤ key b then a :: b :: bs else b :: stableInsertBy key a bs

/-- A stable sort by integer key, the semantics of Python's `list.sort(key=...)`. -/
def stableSortBy {α : Type} (key : α → Int) (l : List α) : List α :=
  l.foldr (stableInsertBy key) []

/-- `alerts.sort(key=lambda x: priority_order.get(x['priority'], 3))`. -/
def sortAlerts (l : List Alert) : List Alert :=
  stableSortBy (fun a => (alertKey a : Int)) l

/-- First-occurrence deduplication of a list (insertion order of a counting dict). -/
def dedupKeepFirst {α : Type} [DecidableEq α] (l : List α) : List α :=
  dropDupsAux [] l

/-- `Series.value_counts()`: non-null values with their frequencies, most frequent
first; ties are modelled in first-occurrence order (the sort is stable in the model,
fixing a deterministic order where pandas leaves ties unspecified). -/
def valueCounts (cells : List Cell) : List (Cell × Nat) :=
  let vs := cells.filter (fun c => c ≠ Cell.null)
  stableSortBy (fun p => -(p.2 : Int))
    ((dedupKeepFirst vs).map (fun v => (v, vs.count v)))

/-- Number of distinct non-null values (`Series.nunique()`). -/
def nuniqueCells (cells : List Cell) : Nat :=
  (dedupKeepFirst (cells.filter (fun c => c ≠ Cell.null))).length

/-- Membership filter `pd.to_datetime(df['询盘时间']) >= now - daysBack days`:
rows whose inquiry time parses and lies in the lookback window (NaT compares false). -/
def rowInWindow (now : Int) (daysBack : Int) (r : Row) : Bool :=
  match parseCellDate (rowGet r "询盘时间") with
  | some t => now - daysBack * 86400 ≤ dateSec t
  | none => false

/-- Rows of the last 14 days, the `recent_data` of detectors 4 and 6. -/
def recentRows14 (now : Int) (d : Dataset) : List Row :=
  d.rows.filter (rowInWindow now 14)

/-- The remark column's canonical header. -/
def remarkCol : String := "备注 (失单原因+跟进机会点)"

/-- `high_value_keywords` of `_check_high_value_customers`. -/
def highValueKeywords : List String :=
  ["自有设计图", "定制品牌", "首单100件", "首单80件", "首单50件",
   "官网", "线上店铺", "OEM", "品牌定制", "大单", "长期合作",
   "wholesale", "bulk order", "brand", "custom", "private label"]

/-- `low_quality_keywords` of `_check_low_quality_inquiries`. -/
def lowQualityKeywords : List String :=
  ["钓鱼", "新注册用户未读", "促销商", "一句话询盘", "不对口",
   "个人买家", "垃圾询盘", "无效询盘", "诈骗", "骗子"]

/-- Per-record high-value alerts of detector 1: one high alert per record whose
remark contains a high-value keyword (first keyword wins, one alert per record). -/
def highValueRowAlerts (d : Dataset) : List Alert :=
  d.rows.filterMap (fun r =>
    (highValueKeywords.find? (fun kw =>
      strContains (strLower (cellToStr (rowGet r remarkCol))) (strLower kw))).map
      (fun _ => Alert.mk "high_value_opportunity" "high"))

/-- The `level_upgraded` alerts of detector 1: up to five `follow_up_grade == 'X'`
records. -/
def levelUpgradedAlerts (d : Dataset) : List Alert :=
  ((d.rows.filter (fun r => cellEqStr (rowGet r "跟进等级") "X")).take 5).map
    (fun _ => Alert.mk "level_upgraded" "high")

/-- Detector 1, `_check_high_value_customers`. -/
def check_high_value_customers (d : Dataset) : List Alert :=
  if remarkCol ∈ d.cols then
    highValueRowAlerts d ++
      (if "跟进等级" ∈ d.cols then levelUpgradedAlerts d else [])
  else []

/-- Per-record low-quality alerts of detector 2. -/
def lowQualityRowAlerts (d : Dataset) : List Alert :=
  d.rows.filterMap (fun r =>
    (lowQualityKeywords.find? (fun kw =>
      strContains (strLower (cellToStr (rowGet r remarkCol))) (strLower kw))).map
      (fun _ => Alert.mk "low_quality_warning" "low"))

/-- Detector 2, `_check_low_quality_inquiries`: the per-record low alerts, plus one
medium summary alert when any match exists. -/
def check_low_quality_inquiries (d : Dataset) : List Alert :=
  if remarkCol ∈ d.cols then
    if 0 < (lowQualityRowAlerts d).length then
      lowQualityRowAlerts d ++ [Alert.mk "low_quality_summary" "medium"]
    else lowQualityRowAlerts d
  else []

/-- Per-record rule of detector 3: a `long_term_unfollow` alert for a record with a
non-null, parseable `last_follow_up_time` whose grade is neither `X` nor `A`, when
`(current_date - last_date).days > 5`; priority high above 7 days, medium otherwise.
Records whose date fails to parse are skipped (the `except: pass`). -/
def unfollowRowAlert (now : Int) (r : Row) : Option Alert :=
  if rowGet r "最后跟进时间" ≠ Cell.null ∧
      ¬(cellEqStr (rowGet r "跟进等级") "X" = true ∨
        cellEqStr (rowGet r "跟进等级") "A" = true) then
    match parseCellDate (rowGet r "最后跟进时间") with
    | some t =>
      if 5 < Int.fdiv (now - dateSec t) 86400 then
        some (Alert.mk "long_term_unfollow"
          (if 7 < Int.fdiv (now - dateSec t) 86400 then "high" else "medium"))
      else none
    | none => none
  else none

/-- The `unread_message` alerts of detector 3: remarks pairing an unread signal
with a sample or interest signal. -/
def unreadMessageAlerts (d : Dataset) : List Alert :=
  d.rows.filterMap (fun r =>
    if strContains (strLower (cellToStr (rowGet r remarkCol))) "未读" = true ∧
        (strContains (strLower (cellToStr (rowGet r remarkCol))) "样品" = true ∨
         strContains (strLower (cellToStr (rowGet r remarkCol))) "兴趣" = true) then
      some (Alert.mk "unread_message" "medium")
    else none)

/-- Detector 3, `_check_long_term_unfollow`. -/
def check_long_term_unfollow (now : Int) (d : Dataset) : List Alert :=
  if "最后跟进时间" ∈ d.cols then
    d.rows.filterMap (unfollowRowAlert now) ++
      (if remarkCol ∈ d.cols then unreadMessageAlerts d else [])
  else []

/-- The `regional_hotspot` alerts of detector 4: countries with at least three
inquiries in the last 14 days (emitted only when the product column exists to name
a top product). -/
def regionalHotspotAlerts (now : Int) (d : Dataset) : List Alert :=
  (valueCounts ((recentRows14 now d).map (fun r => rowGet r "国家"))).filterMap
    (fun p =>
      if 3 ≤ p.2 then
        if "询价产品" ∈ d.cols then some (Alert.mk "regional_hotspot" "high") else none
      else none)

/-- Rows of the last 7 days. -/
def thisWeekRows (now : Int) (d : Dataset) : List Row :=
  d.rows.filter (rowInWindow now 7)

/-- Rows between 14 and 7 days ago. -/
def lastWeekRows (now : Int) (d : Dataset) : List Row :=
  d.rows.filter (fun r => rowInWindow now 14 r && !(rowInWindow now 7 r))

/-- The `emerging_market` alerts of detector 4: continents whose week-over-week
growth exceeds 50%. -/
def emergingMarketAlerts (now : Int) (d : Dataset) : List Alert :=
  (valueCounts ((thisWeekRows now d).map (fun r => rowGet r "所属大洲"))).filterMap
    (fun (p : Cell × Nat) =>
      match (valueCounts ((lastWeekRows now d).map (fun r => rowGet r "所属大洲"))).find?
          (fun q => q.1 == p.1) with
      | some q =>
        if 0 < q.2 then
          if (50 : Rat) < ((((p.2 : Int) - (q.2 : Int) : Int) : Rat) / ((q.2 : Int) : Rat) * 100) then
            some (Alert.mk "emerging_market" "high")
          else none
        else none
      | none => none)

/-- Detector 4, `_check_regional_trends`. -/
def check_regional_trends (now : Int) (d : Dataset) : List Alert :=
  if "国家" ∈ d.cols ∧ "询盘时间" ∈ d.cols then
    regionalHotspotAlerts now d ++
      (if "所属大洲" ∈ d.cols then emergingMarketAlerts now d else [])
  else []

/-- The `hot_product` alerts of detector 5: products asked about at least three
times within the last 7 days. -/
def hotProductAlerts (now : Int) (d : Dataset) : List Alert :=
  (valueCounts ((thisWeekRows now d).map (fun r => rowGet r "询价产品"))).filterMap
    (fun p => if 3 ≤ p.2 then some (Alert.mk "hot_product" "high") else none)

/-- The recent rows of detector 5 whose remark mentions low-MOQ signals. -/
def lowMoqRows (now : Int) (d : Dataset) : List Row :=
  (thisWeekRows now d).filter (fun r =>
    strContains (strLower (cellToStr (rowGet r remarkCol))) "moq" ||
    strContains (strLower (cellToStr (rowGet r remarkCol))) "起订量" ||
    strContains (strLower (cellToStr (rowGet r remarkCol))) "小批量")

/-- Detector 5, `_check_product_trends`. -/
def check_product_trends (now : Int) (d : Dataset) : List Alert :=
  if "询价产品" ∈ d.cols ∧ "询盘时间" ∈ d.cols then
    hotProductAlerts now d ++
      (if remarkCol ∈ d.cols then
        (if 5 ≤ (lowMoqRows now d).length then [Alert.mk "low_moq_demand" "medium"] else [])
      else [])
  else []

/-- Detector 6, `_check_conversion_funnel`: over the rows of the last 14 days
(nothing is emitted when that window is empty), `no_a_level` when no record has
grade `A`, `low_conversion` when the `X`-grade share is below 5%, and
`high_c_level` when the `C`-grade share exceeds 50%. -/
def check_conversion_funnel (now : Int) (d : Dataset) : List Alert :=
  if "跟进等级" ∈ d.cols ∧ "询盘时间" ∈ d.cols then
    if (recentRows14 now d).length = 0 then []
    else
      (if ((recentRows14 now d).filter
            (fun r => cellEqStr (rowGet r "跟进等级") "A")).length = 0 then
        [Alert.mk "no_a_level" "high"] else []) ++
      (if ((((recentRows14 now d).filter
            (fun r => cellEqStr (rowGet r "跟进等级") "X")).length : Rat) /
            ((recentRows14 now d).length : Rat) * 100) < 5 then
        [Alert.mk "low_conversion" "high"] else []) ++
      (if (50 : Rat) < ((((recentRows14 now d).filter
            (fun r => cellEqStr (rowGet r "跟进等级") "C")).length : Rat) /
            ((recentRows14 now d).length : Rat) * 100) then
        [Alert.mk "high_c_level" "medium"] else [])
  else []

/-- The concatenation of the six detectors' outputs, in `get_smart_alerts` order. -/
def emittedAlerts (now : Int) (d : Dataset) : List Alert :=
  check_high_value_customers d ++ check_low_quality_inquiries d ++
  check_long_term_unfollow now d ++ check_regional_trends now d ++
  check_product_trends now d ++ check_conversion_funnel now d

/-- `get_smart_alerts` on a loaded dataset: run the six detectors, then sort the
collected alerts by priority. -/
def get_smart_alerts (now : Int) (d : Dataset) : List Alert :=
  sortAlerts (emittedAlerts now d)

/-! ## Aggregate Analyzer (`analyze_data`) -/

/-- Minimum of a string column (`Series.min()` on an object column is lexicographic;
missing values are skipped; an empty or non-string column yields NaN).  Cleaned
datasets are entirely string-typed, so this covers every reachable case. -/
def seriesMinStr (cells : List Cell) : Cell :=
  match (cells.filterMap (fun c => match c with | Cell.str s => some s | _ => none)).foldl
      (fun acc s => match acc with
        | none => some s
        | some m => some (if s < m then s else m)) none with
  | some s => Cell.str s
  | none => Cell.null

/-- Maximum of a string column (`Series.max()`), as `seriesMinStr`. -/
def seriesMaxStr (cells : List Cell) : Cell :=
  match (cells.filterMap (fun c => match c with | Cell.str s => some s | _ => none)).foldl
      (fun acc s => match acc with
        | none => some s
        | some m => some (if m < s then s else m)) none with
  | some s => Cell.str s
  | none => Cell.null

/-- The daily time series of `analyze_data`: coercing date parsing of `询盘时间`,
invalid entries dropped, counts grouped by calendar date with the keys in ascending
date order (pandas `groupby` sorts its keys). -/
def dailyTrendOf (cells : List Cell) : List (Ymd × Nat) :=
  let ts := cells.filterMap parseCellDate
  (stableSortBy daysFromCivil (dedupKeepFirst ts)).map (fun t => (t, ts.count t))

/-- The statistics snapshot `analysis_results` built by `analyze_data`; parts whose
source column is absent are `none`. -/
structure AnalysisResults where
  totalCustomers : Nat
  totalInquiries : Nat
  dateRangeStart : Option Cell
  dateRangeEnd : Option Cell
  continentAnalysis : Option (List (Cell × Nat))
  countryAnalysis : Option (List (Cell × Nat))
  productAnalysis : Option (List (Cell × Nat))
  followUpAnalysis : Option (List (Cell × Nat))
  dailyTrend : Option (List (Ymd × Nat))
  handlerAnalysis : Option (List (Cell × Nat))
deriving DecidableEq, Repr

/-- `analyze_data`: raises the precondition error when no dataset is loaded
(`self.data is None`), and otherwise assembles the statistics snapshot from the
loaded dataset, guarding each part on its column's presence. -/
def analyze_data (data : Option Dataset) : Except String AnalysisResults :=
  match data with
  | none => Except.error "请先读取数据"
  | some d =>
    Except.ok
      { totalCustomers := d.rows.length
        totalInquiries := d.rows.length
        dateRangeStart :=
          if "询盘时间" ∈ d.cols then some (seriesMinStr (colCells d "询盘时间")) else none
        dateRangeEnd :=
          if "询盘时间" ∈ d.cols then some (seriesMaxStr (colCells d "询盘时间")) else none
        continentAnalysis :=
          if "所属大洲" ∈ d.cols then some (valueCounts (colCells d "所属大洲")) else none
        countryAnalysis :=
          if "国家" ∈ d.cols then some ((valueCounts (colCells d "国家")).take 10) else none
        productAnalysis :=
          if "询价产品" ∈ d.cols then some ((valueCounts (colCells d "询价产品")).take 10) else none
        followUpAnalysis :=
          if "跟进等级" ∈ d.cols then some (valueCounts (colCells d "跟进等级")) else none
        dailyTrend :=
          if "询盘时间" ∈ d.cols then some (dailyTrendOf (colCells d "询盘时间")) else none
        handlerAnalysis :=
          if "跟进人" ∈ d.cols then some (valueCounts (colCells d "跟进人")) else none }

/-- State form of `analyze_data`: the method reads `self.data`, writes only
`self.analysis_results`, and returns the snapshot; the dataset component of the
state is passed through untouched. -/
def analyzeDataState (data : Option Dataset) : Option Dataset × Except String AnalysisResults :=
  (data, analyze_data data)

/-! ## Narrative summary builder (`_prepare_data_summary`): effect on the dataset -/

/-- ISO weekday, Monday = 1 (`1970-01-01` was a Thursday). -/
def isoWeekday (t : Ymd) : Int :=
  (daysFromCivil t + 3).emod 7 + 1

/-- Day of the year, 1-based. -/
def dayOfYear (t : Ymd) : Int :=
  daysFromCivil t - daysFromCivil ⟨t.year, 1, 1⟩ + 1

/-- Number of ISO weeks in a year (53 when the year starts or ends on a Thursday). -/
def isoWeeksInYear (y : Int) : Int :=
  if isoWeekday ⟨y, 1, 1⟩ = 4 ∨ isoWeekday ⟨y, 12, 31⟩ = 4 then 53 else 52

/-- ISO week number of a date (`Timestamp.isocalendar().week`). -/
def isoWeek (t : Ymd) : Int :=
  let w := (dayOfYear t - isoWeekday t + 10) / 7
  if w < 1 then isoWeeksInYear (t.year - 1)
  else if isoWeeksInYear t.year < w then 1
  else w

/-- Write one field of a row: overwrite in place when the key exists, else append
it on the right. -/
def setField (r : Row) (k : String) (v : Cell) : Row :=
  if r.any (fun p => p.1 == k) then r.map (fun p => if p.1 == k then (p.1, v) else p)
  else r ++ [(k, v)]

/-- Write a column into a frame (`df[c] = values`): overwrite in place when the
column exists, else append it on the right. -/
def setCol (d : Dataset) (c : String) (vals : List Cell) : Dataset :=
  ⟨if c ∈ d.cols then d.cols else d.cols ++ [c],
   (d.rows.zip vals).map (fun rv => setField rv.1 c rv.2)⟩

/-- The reads `_prepare_data_summary` performs before the `日期` write at line
986, each of which raises and leaves the frame untouched when it fails: without a
user-supplied range, lines 938-939 take the lexicographic min/max of `询盘时间`
and `strftime` them (KeyError when the column is missing, a raise when the
min/max—e.g. the empty string—does not parse to a date); lines 943-983 read the
`客户名称`, `国家`, `跟进等级`, `询价产品`, `咨询方式` and `跟进人` columns
unguarded (KeyError when missing; only `客户层级` is presence-guarded).  With a
user-supplied range the min/max path is skipped (the callers pass date values,
so the range itself converts). -/
def prepareReadsOk (d : Dataset) (hasUserRange : Bool) : Bool :=
  (hasUserRange ||
    (decide ("询盘时间" ∈ d.cols) &&
     (parseCellDate (seriesMinStr (colCells d "询盘时间"))).isSome &&
     (parseCellDate (seriesMaxStr (colCells d "询盘时间"))).isSome)) &&
  decide ("客户名称" ∈ d.cols) && decide ("国家" ∈ d.cols) &&
  decide ("跟进等级" ∈ d.cols) && decide ("询价产品" ∈ d.cols) &&
  decide ("咨询方式" ∈ d.cols) && decide ("跟进人" ∈ d.cols)

/-- Whether `pd.to_datetime(self.data['询盘时间'])` at line 986 succeeds: the
column exists and every non-empty string cell parses (the empty string converts
to NaT; a raise happens while evaluating the right-hand side, before the
assignment, so a failure leaves the frame untouched). -/
def dateColumnConvertible (d : Dataset) : Bool :=
  decide ("询盘时间" ∈ d.cols) &&
  (colCells d "询盘时间").all (fun c => match c with
    | Cell.str s => s == "" || (parseDate s).isSome
    | _ => true)

/-- The state of the working dataset `self.data` after `_prepare_data_summary`
returns or raises.  Nothing changes for an empty/unset frame (the early
`return "无数据"`), when a pre-summary read raises (`prepareReadsOk` false), or
when the line-986 date conversion itself raises; otherwise the derived column
`日期` (the parsed date of `询盘时间`) is written into the frame.  When no date
parses, `idxmax` at line 989 raises after that write, so the frame keeps only
`日期`; otherwise, when the analyzed span (user-selected or data-derived,
`timeSpan`) reaches 14 days, the ISO-week column `周次` is written as well.
Every other statement of the method only reads the frame. -/
def prepare_data_summary_data (d : Dataset) (hasUserRange : Bool) (timeSpan : Int) : Dataset :=
  if d.rows.isEmpty then d
  else if prepareReadsOk d hasUserRange = false then d
  else if dateColumnConvertible d = false then d
  else if (colCells d "询盘时间").filterMap parseCellDate = [] then
    setCol d "日期" (d.rows.map (fun r =>
      match parseCellDate (rowGet r "询盘时间") with
      | some t => Cell.date t
      | none => Cell.null))
  else if 14 ≤ timeSpan then
    setCol
      (setCol d "日期" (d.rows.map (fun r =>
        match parseCellDate (rowGet r "询盘时间") with
        | some t => Cell.date t
        | none => Cell.null)))
      "周次"
      ((setCol d "日期" (d.rows.map (fun r =>
        match parseCellDate (rowGet r "询盘时间") with
        | some t => Cell.date t
        | none => Cell.null))).rows.map (fun r =>
          match parseCellDate (rowGet r "询盘时间") with
          | some t => Cell.num (isoWeek t)
          | none => Cell.null))
  else
    setCol d "日期" (d.rows.map (fun r =>
      match parseCellDate (rowGet r "询盘时间") with
      | some t => Cell.date t
      | none => Cell.null))

/-! ## Classification Advisor (`ai_classify_customer`) -/

/-- A JSON value, for the `json.loads` stage of `_parse_classification_response`.
Strings support the common single-character escapes; numbers are read as integers
(digits before any fraction/exponent), enough to decide parse success and to carry
the string fields the advisor reads. -/
inductive JVal where
  | jstr : String → JVal
  | jnum : Int → JVal
  | jbool : Bool → JVal
  | jnull : JVal
  | jarr : List JVal → JVal
  | jobj : List (String × JVal) → JVal
deriving Repr

/-- JSON whitespace skipping. -/
def skipWs (cs : List Char) : List Char :=
  cs.dropWhile (fun c => c == ' ' || c == '\n' || c == '\t' || c == '\r')

/-- The table of single-character JSON escapes accepted by `json.loads`. -/
def escapeTable : List (Char × Char) :=
  [('"', '"'), ('\\', '\\'), ('/', '/'), ('n', '\n'), ('t', '\t'),
   ('r', '\r'), ('b', Char.ofNat 8), ('f', Char.ofNat 12)]

/-- Unescaping of a single-character JSON escape, by table lookup. -/
def unescapeChar (c : Char) : Option Char :=
  (escapeTable.find? (fun e => e.1 == c)).map (fun e => e.2)

/-- Body of a JSON string after the opening quote: content and remaining input. -/
def parseJStrAux (fuel : Nat) (cs : List Char) : Option (List Char × List Char) :=
  match fuel, cs with
  | 0, _ => none
  | _, [] => none
  | fuel + 1, c :: rest =>
    if c == '"' then some ([], rest)
    else if c == '\\' then
      match rest with
      | [] => none
      | e :: rest2 =>
        match unescapeChar e with
        | some u =>
          match parseJStrAux fuel rest2 with
          | some (acc, r) => some (u :: acc, r)
          | none => none
        | none => none
    else
      match parseJStrAux fuel rest with
      | some (acc, r) => some (c :: acc, r)
      | none => none

/-- An integer numeral with optional sign, fraction and exponent (value read from
the integer part). -/
def parseJNum (cs : List Char) : Option (Int × List Char) :=
  let (neg, cs1) := match cs with
    | '-' :: rest => (true, rest)
    | _ => (false, cs)
  let digits := cs1.takeWhile Char.isDigit
  let cs2 := cs1.dropWhile Char.isDigit
  if digits = [] then none
  else
    let n : Nat := digits.foldl (fun acc c => acc * 10 + (c.toNat - 48)) 0
    let cs3 := match cs2 with
      | '.' :: rest =>
        if (rest.takeWhile Char.isDigit) = [] then cs2 else rest.dropWhile Char.isDigit
      | _ => cs2
    let cs4 := match cs3 with
      | 'e' :: rest => skipExp rest cs3
      | 'E' :: rest => skipExp rest cs3
      | _ => cs3
    some (if neg then -(n : Int) else (n : Int), cs4)
where
  /-- Consume an exponent's sign and digits, falling back when malformed. -/
  skipExp (rest orig : List Char) : List Char :=
    let rest1 := match rest with
      | '+' :: r => r
      | '-' :: r => r
      | _ => rest
    if (rest1.takeWhile Char.isDigit) = [] then orig else rest1.dropWhile Char.isDigit

mutual

/-- Recursive JSON value parser with fuel. -/
def parseJVal (fuel : Nat) (cs : List Char) : Option (JVal × List Char) :=
  match fuel with
  | 0 => none
  | fuel + 1 =>
    match skipWs cs with
    | [] => none
    | c :: rest =>
      if c == '"' then
        match parseJStrAux (fuel + 1) rest with
        | some (content, r) => some (JVal.jstr (String.mk content), r)
        | none => none
      else if c == '{' then
        match skipWs rest with
        | '}' :: r2 => some (JVal.jobj [], r2)
        | _ => parseJPairs fuel rest []
      else if c == '[' then
        match skipWs rest with
        | ']' :: r2 => some (JVal.jarr [], r2)
        | _ => parseJItems fuel rest []
      else if "true".toList.isPrefixOf (c :: rest) then
        some (JVal.jbool true, (c :: rest).drop 4)
      else if "false".toList.isPrefixOf (c :: rest) then
        some (JVal.jbool false, (c :: rest).drop 5)
      else if "null".toList.isPrefixOf (c :: rest) then
        some (JVal.jnull, (c :: rest).drop 4)
      else
        match parseJNum (c :: rest) with
        | some (n, r) => some (JVal.jnum n, r)
        | none => none

/-- Members of a JSON object after its opening brace. -/
def parseJPairs (fuel : Nat) (cs : List Char) (acc : List (String × JVal)) :
    Option (JVal × List Char) :=
  match fuel with
  | 0 => none
  | fuel + 1 =>
    match skipWs cs with
    | '"' :: rest =>
      match parseJStrAux (fuel + 1) rest with
      | some (key, r1) =>
        match skipWs r1 with
        | ':' :: r2 =>
          match parseJVal fuel r2 with
          | some (v, r3) =>
            match skipWs r3 with
            | ',' :: r4 => parseJPairs fuel r4 (acc ++ [(String.mk key, v)])
            | '}' :: r4 => some (JVal.jobj (acc ++ [(String.mk key, v)]), r4)
            | _ => none
          | none => none
        | _ => none
      | none => none
    | _ => none

/-- Elements of a JSON array after its opening bracket. -/
def parseJItems (fuel : Nat) (cs : List Char) (acc : List JVal) :
    Option (JVal × List Char) :=
  match fuel with
  | 0 => none
  | fuel + 1 =>
    match parseJVal fuel cs with
    | some (v, r1) =>
      match skipWs r1 with
      | ',' :: r2 => parseJItems fuel r2 (acc ++ [v])
      | ']' :: r2 => some (JVal.jarr (acc ++ [v]), r2)
      | _ => none
    | none => none

end

/-- `json.loads` on a string: a complete JSON value with nothing but whitespace
after it. -/
def jsonLoads (s : String) : Option JVal :=
  match parseJVal (s.length + 1) s.toList with
  | some (v, rest) => if skipWs rest = [] then some v else none
  | none => none

/-- The regex extraction `re.search(r'\x7b.*\x7d', response, re.DOTALL)`: the span
from the first opening brace to the last closing brace, when both exist in that
order. -/
def findJson (s : String) : Option String :=
  let cs := s.toList
  match cs.findIdx? (fun c => c == '{'), cs.reverse.findIdx? (fun c => c == '}') with
  | some i, some jr =>
    let j := cs.length - 1 - jr
    if i < j then some (String.mk ((cs.drop i).take (j - i + 1))) else none
  | _, _ => none

/-- One behaviour of the external classification service as observed by the caller:
a transport-level exception, a response with a non-200 status, or a 200 response
whose extracted text is the given string. -/
inductive ApiBehavior where
  | transportError : ApiBehavior
  | httpError : Nat → ApiBehavior
  | success : String → ApiBehavior

/-- `_call_qwen_api`: returns the response text on success and the empty string on
any transport error or non-success status (both are caught and logged). -/
def call_qwen_api (b : ApiBehavior) : String :=
  match b with
  | ApiBehavior.success t => t
  | _ => ""

/-- The deterministic fallback classification result (`'C'`, generic intent and
suggestion), returned on parse failure. -/
def classifyDefaultC : List (String × JVal) :=
  [("classification", JVal.jstr "C"), ("intent", JVal.jstr "未知"),
   ("suggestion", JVal.jstr "需要进一步了解客户需求")]

/-- The keyword-scan fallback of `_parse_classification_response`: the first grade
letter among `A`, `B`, `X` occurring anywhere in the raw response, else `C`. -/
def classifyScan (response : String) : List (String × JVal) :=
  let c :=
    if strContains response "A" then "A"
    else if strContains response "B" then "B"
    else if strContains response "X" then "X"
    else "C"
  [("classification", JVal.jstr c), ("intent", JVal.jstr "未知"),
   ("suggestion", JVal.jstr "需要进一步了解客户需求")]

/-- `_parse_classification_response`: extract the first-brace-to-last-brace span
and `json.loads` it, returning the parsed object as is; when extraction finds no
braces, scan the raw text for a grade letter; when `json.loads` fails (or yields a
non-object, which a brace-delimited span cannot), the surrounding `except` returns
the `C` default. -/
def parse_classification_response (response : String) : List (String × JVal) :=
  match findJson response with
  | some js =>
    match jsonLoads js with
    | some (JVal.jobj fields) => fields
    | some _ => classifyDefaultC
    | none => classifyDefaultC
  | none => classifyScan response

/-- `ai_classify_customer`, composed over an observed service behaviour: build the
prompt (pure), call the service, parse the response; any error inside the call is
already resolved to a value by the inner handlers. -/
def ai_classify_customer (b : ApiBehavior) : List (String × JVal) :=
  parse_classification_response (call_qwen_api b)

/-- Key presence in a result dict. -/
def hasKey (r : List (String × JVal)) (k : String) : Bool :=
  r.any (fun p => p.1 == k)

/-- A service-level failure: transport error or non-success response. -/
def isServiceError (b : ApiBehavior) : Bool :=
  match b with
  | ApiBehavior.success _ => false
  | _ => true

/-- A response text that is not valid structured JSON: no brace-delimited span, or
a span that fails to load. -/
def responseNotValidJson (t : String) : Bool :=
  match findJson t with
  | none => true
  | some js => (jsonLoads js).isNone

/-! ## Helper lemmas -/

theorem dropDupsAux_length {α : Type} [DecidableEq α] :
    ∀ (l : List α) (seen : List α),
      (dropDupsAux seen l).length + dupCountAux seen l = l.length := by
  intro l
  induction l with
  | nil => intro seen; rfl
  | cons a as ih =>
    intro seen
    by_cases h : a ∈ seen
    · simp only [dropDupsAux, dupCountAux, if_pos h, List.length_cons]
      have := ih seen
      omega
    · simp only [dropDupsAux, dupCountAux, if_neg h, List.length_cons]
      have := ih (a :: seen)
      omega

theorem dropDupsAux_subset {α : Type} [DecidableEq α] :
    ∀ (l : List α) (seen : List α) (x : α), x ∈ dropDupsAux seen l → x ∈ l := by
  intro l
  induction l with
  | nil => intro seen x hx; simp [dropDupsAux] at hx
  | cons a as ih =>
    intro seen x hx
    by_cases h : a ∈ seen
    · simp only [dropDupsAux, if_pos h] at hx
      exact List.mem_cons_of_mem a (ih seen x hx)
    · simp only [dropDupsAux, if_neg h, List.mem_cons] at hx
      rcases hx with hx | hx
      · exact hx ▸ List.mem_cons_self a as
      · exact List.mem_cons_of_mem a (ih (a :: seen) x hx)

theorem dropDupsAux_nodup {α : Type} [DecidableEq α] :
    ∀ (l : List α) (seen : List α),
      (dropDupsAux seen l).Nodup ∧ ∀ x ∈ dropDupsAux seen l, x ∉ seen := by
  intro l
  induction l with
  | nil => intro seen; simp [dropDupsAux]
  | cons a as ih =>
    intro seen
    by_cases h : a ∈ seen
    · simpa only [dropDupsAux, if_pos h] using ih seen
    · obtain ⟨hnd, hns⟩ := ih (a :: seen)
      simp only [dropDupsAux, if_neg h]
      constructor
      · refine List.nodup_cons.mpr ⟨fun hmem => ?_, hnd⟩
        exact (hns a hmem) (List.mem_cons_self a seen)
      · intro x hx
        rcases List.mem_cons.mp hx with rfl | hx
        · exact h
        · exact fun hxs => (hns x hx) (List.mem_cons_of_mem a hxs)

theorem dropDupsAux_of_nodup {α : Type} [DecidableEq α] :
    ∀ (l : List α) (seen : List α), l.Nodup → (∀ x ∈ l, x ∉ seen) →
      dropDupsAux seen l = l := by
  intro l
  induction l with
  | nil => intro seen _ _; rfl
  | cons a as ih =>
    intro seen hnd hout
    have ha : a ∉ seen := hout a (List.mem_cons_self a as)
    simp only [dropDupsAux, if_neg ha]
    congr 1
    refine ih (a :: seen) (List.nodup_cons.mp hnd).2 ?_
    intro x hx
    intro hxs
    rcases List.mem_cons.mp hxs with rfl | hxs
    · exact (List.nodup_cons.mp hnd).1 hx
    · exact (hout x (List.mem_cons_of_mem a hx)) hxs

theorem colApply_rows_length (d : Dataset) (c : String) (f : Cell → Cell) :
    (colApply d c f).rows.length = d.rows.length := by
  simp [colApply]

theorem cleanDatesFold_rows_length :
    ∀ (cs : List String) (d : Dataset),
      ((cs.foldl (fun acc c => colApply acc c (cleanDateCellFun (colCells acc c))) d).rows).length =
        d.rows.length := by
  intro cs
  induction cs with
  | nil => intro d; rfl
  | cons c cs ih =>
    intro d
    simp only [List.foldl_cons]
    rw [ih, colApply_rows_length]

theorem pre_dedup_rows_length (d : Dataset) :
    (pre_dedup d).rows.length = d.rows.length := by
  simp only [pre_dedup, fillnaAll, clean_data_dates]
  rw [List.length_map]
  exact cleanDatesFold_rows_length _ d

/-! ## Claim theorems -/

/-- Input frame for the schema-normalizer order-sensitivity scenario: a last
follow-up column ahead of the true inquiry-time column. -/
def ds10 : Dataset :=
  ⟨["Last Follow-up Time", "Inquiry Time"],
   [[("Last Follow-up Time", Cell.str "2024/01/01"), ("Inquiry Time", Cell.str "2024/02/02")]]⟩

/-- Claim C10: the inquiry-time keyword group (containing the generic substrings
`time` and `时间`) is tested before the last-follow-up group, so for the header
order `Last Follow-up Time`, `Inquiry Time` the first header claims the canonical
`询盘时间` field; the true inquiry-time column matches no group and is absent from
the canonical 12-column output view that downstream consumers read, its data
appearing in no canonical column. -/
theorem c10_column_order_sensitivity :
    buildColumnMapping ["Last Follow-up Time", "Inquiry Time"] =
      [("Last Follow-up Time", some "询盘时间"), ("Inquiry Time", none)] ∧
    colCells (canonicalView (standardize_columns ds10)) "询盘时间" = [Cell.str "2024/01/01"] ∧
    ("Inquiry Time" ∉ (canonicalView (standardize_columns ds10)).cols) ∧
    (∀ c ∈ standardColumns,
      colCells (canonicalView (standardize_columns ds10)) c ≠ [Cell.str "2024/02/02"]) := by
  decide

/-- Claim C2: when a date column is numeric with non-null minimum above 25568,
`_clean_data` converts each cell by the Excel-serial rule, interpreting a positive
value `x` as 1899-12-30 plus `x` days; under that conversion serial 1 is
1899-12-31 and serial 25569 is 1970-01-01. -/
theorem c2_serial_conversion (cells : List Cell) (m : Int)
    (h1 : isNumericDtype cells = true)
    (h2 : minNum? (nonNullNums cells) = some m)
    (h3 : 25568 < m) :
    cells.map (cleanDateCellFun cells) = cells.map serialCellFun ∧
    serialToDate 1 = ⟨1899, 12, 31⟩ ∧ serialToDate 25569 = ⟨1970, 1, 1⟩ := by
  refine ⟨?_, by decide, by decide⟩
  unfold cleanDateCellFun
  rw [h1, h2]
  simp [h3]

/-- Witness for C2 at the column `[25569, NaN]`. -/
theorem c2_serial_conversion_witness :
    (isNumericDtype [Cell.num 25569, Cell.null] = true ∧
     minNum? (nonNullNums [Cell.num 25569, Cell.null]) = some 25569 ∧
     (25568 : Int) < 25569) ∧
    ([Cell.num 25569, Cell.null].map (cleanDateCellFun [Cell.num 25569, Cell.null]) =
       [Cell.num 25569, Cell.null].map serialCellFun ∧
     serialToDate 1 = ⟨1899, 12, 31⟩ ∧ serialToDate 25569 = ⟨1970, 1, 1⟩) :=
  ⟨⟨by decide, by decide, by decide⟩,
   c2_serial_conversion [Cell.num 25569, Cell.null] 25569 (by decide) (by decide) (by decide)⟩

/-- Claim C3: the dedup step of `_clean_data` removes exactly the `k` rows that
duplicate an earlier row of the frame it is applied to (whose row count equals the
input's), every retained row is one of those rows, and no two retained rows are
identical. -/
theorem c3_dedup_correctness (d : Dataset) :
    (pre_dedup d).rows.length = d.rows.length ∧
    (clean_data d).rows.length + dupCountAux [] (pre_dedup d).rows = d.rows.length ∧
    (∀ r ∈ (clean_data d).rows, r ∈ (pre_dedup d).rows) ∧
    (clean_data d).rows.Nodup := by
  refine ⟨pre_dedup_rows_length d, ?_, ?_, ?_⟩
  · have h := dropDupsAux_length (pre_dedup d).rows ([] : List Row)
    have h2 := pre_dedup_rows_length d
    simp only [clean_data, dropDuplicatesRows]
    omega
  · intro r hr
    exact dropDupsAux_subset (pre_dedup d).rows [] r hr
  · exact (dropDupsAux_nodup (pre_dedup d).rows []).1

/-- Claim C5 counterexample: an empty but loaded dataset does not fail—
`analyze_data` only raises when no dataset is loaded, so the empty canonical frame
is analyzed and a snapshot is returned. -/
theorem c5_counterexample :
    ∃ r, analyze_data (some ⟨standardColumns, []⟩) = Except.ok r :=
  ⟨_, rfl⟩

/-- Claim C5 (amended): `analyze_data` fails with the precondition error exactly
when the dataset is unset; any loaded dataset—including an empty one—yields a
statistics snapshot, and the dataset component of the state is unchanged. -/
theorem c5_precondition_error :
    analyze_data none = Except.error "请先读取数据" ∧
    (∀ d : Dataset, ∃ r, analyze_data (some d) = Except.ok r) ∧
    (∀ o : Option Dataset, (analyzeDataState o).1 = o) :=
  ⟨rfl, fun _ => ⟨_, rfl⟩, fun _ => rfl⟩

/-- Claim C9: for a transport error, a non-success response, or a response that is
not valid structured JSON, the classification advisor returns a dict carrying all
three fields, and on a service-level error (transport or non-success, where the
call yields the empty response) the result is exactly the `C` default. -/
theorem c9_classification_fallback (b : ApiBehavior)
    (h : isServiceError b = true ∨ responseNotValidJson (call_qwen_api b) = true) :
    (hasKey (ai_classify_customer b) "classification" = true ∧
     hasKey (ai_classify_customer b) "intent" = true ∧
     hasKey (ai_classify_customer b) "suggestion" = true) ∧
    (isServiceError b = true → ai_classify_customer b = classifyDefaultC) := by
  cases b with
  | transportError => exact ⟨⟨rfl, rfl, rfl⟩, fun _ => rfl⟩
  | httpError s => exact ⟨⟨rfl, rfl, rfl⟩, fun _ => rfl⟩
  | success t =>
    have hinv : responseNotValidJson t = true := by
      rcases h with h | h
      · simp [isServiceError] at h
      · exact h
    constructor
    · unfold ai_classify_customer call_qwen_api parse_classification_response
      unfold responseNotValidJson at hinv
      cases hfj : findJson t with
      | none =>
        simp [classifyScan, hasKey]
      | some js =>
        rw [hfj] at hinv
        have hjl : jsonLoads js = none := by simpa using hinv
        simp [hjl, classifyDefaultC, hasKey]
    · intro hserr
      simp [isServiceError] at hserr

/-- Witness for C9 at the transport-error behaviour. -/
theorem c9_classification_fallback_witness :
    (isServiceError ApiBehavior.transportError = true) ∧
    ((hasKey (ai_classify_customer ApiBehavior.transportError) "classification" = true ∧
      hasKey (ai_classify_customer ApiBehavior.transportError) "intent" = true ∧
      hasKey (ai_classify_customer ApiBehavior.transportError) "suggestion" = true) ∧
     (isServiceError ApiBehavior.transportError = true →
       ai_classify_customer ApiBehavior.transportError = classifyDefaultC)) :=
  ⟨rfl, c9_classification_fallback ApiBehavior.transportError (Or.inl rfl)⟩

theorem rowGet_cons (a : String) (w : Cell) (r : Row) (c : String) :
    rowGet ((a, w) :: r) c = if (a == c) = true then w else rowGet r c := by
  by_cases hc : (a == c) = true
  · unfold rowGet
    rw [List.find?_cons_of_pos _ (by simpa using hc)]
    simp [hc]
  · unfold rowGet
    rw [List.find?_cons_of_neg _ (by simpa using hc)]
    simp [hc]

theorem rowGet_map_updateAt (k : String) (v : Cell) (c : String) (h : c ≠ k) :
    ∀ r : Row, rowGet (r.map (fun p => if p.1 == k then (p.1, v) else p)) c = rowGet r c := by
  intro r
  induction r with
  | nil => rfl
  | cons p r ih =>
    obtain ⟨a, w⟩ := p
    have hpair : (if (a, w).1 == k then ((a, w).1, v) else (a, w)) =
        (a, if (a == k) = true then v else w) := by
      by_cases hk : (a == k) = true <;> simp [hk]
    rw [List.map_cons, hpair, rowGet_cons, rowGet_cons]
    by_cases hc : (a == c) = true
    · have hac : a = c := by simpa using hc
      have hak : (a == k) = false := by
        subst hac
        simpa using h
      rw [if_pos hc, if_pos hc]
      simp [hak]
    · rw [if_neg hc, if_neg hc]
      exact ih

theorem rowGet_append_single (k : String) (v : Cell) (c : String) (h : c ≠ k) :
    ∀ r : Row, rowGet (r ++ [(k, v)]) c = rowGet r c := by
  intro r
  induction r with
  | nil =>
    have hkc : (k == c) = false := by
      simp only [beq_eq_false_iff_ne, ne_eq]
      exact fun hkc => h hkc.symm
    show rowGet ((k, v) :: []) c = rowGet [] c
    rw [rowGet_cons]
    simp [hkc]
  | cons p r ih =>
    obtain ⟨a, w⟩ := p
    rw [List.cons_append, rowGet_cons, rowGet_cons]
    by_cases hc : (a == c) = true
    · rw [if_pos hc, if_pos hc]
    · rw [if_neg hc, if_neg hc]
      exact ih

theorem rowGet_setField (r : Row) (k : String) (v : Cell) (c : String) (h : c ≠ k) :
    rowGet (setField r k v) c = rowGet r c := by
  unfold setField
  by_cases ha : r.any (fun p => p.1 == k)
  · rw [if_pos ha]; exact rowGet_map_updateAt k v c h r
  · rw [if_neg ha]; exact rowGet_append_single k v c h r

theorem zip_map_self {α β : Type} (f : α → β) :
    ∀ (l : List α), l.zip (l.map f) = l.map (fun a => (a, f a)) := by
  intro l
  induction l with
  | nil => rfl
  | cons a l ih => simp [List.zip_cons_cons, ih]

theorem setCol_colCells_other (d : Dataset) (k : String) (f : Row → Cell) (c : String)
    (h : c ≠ k) :
    colCells (setCol d k (d.rows.map f)) c = colCells d c := by
  simp only [setCol, colCells, zip_map_self, List.map_map]
  refine List.map_congr_left ?_
  intro r _
  exact rowGet_setField r k (f r) c h

theorem setCol_rows_length (d : Dataset) (k : String) (f : Row → Cell) :
    (setCol d k (d.rows.map f)).rows.length = d.rows.length := by
  simp [setCol, zip_map_self]

/-- Input frame for the report-generation frame-effect scenario: one fully
canonical cleaned row, on which every pre-summary read of `_prepare_data_summary`
succeeds, so execution reaches the line-986 write. -/
def ds6 : Dataset :=
  ⟨standardColumns,
   [[("询盘时间", Cell.str "2024/03/05"), ("咨询方式", Cell.str "TM"),
     ("跟进等级", Cell.str "B"), ("客户名称", Cell.str "Acme"),
     ("客户层级", Cell.str "L1"), ("所属大洲", Cell.str "欧洲"),
     ("国家", Cell.str "Germany"), ("询价产品", Cell.str "widget"),
     ("产品ID", Cell.str "123456789012"), ("跟进人", Cell.str "Li"),
     ("备注 (失单原因+跟进机会点)", Cell.str ""), ("最后跟进时间", Cell.str "")]]⟩

/-- Claim C6 counterexample: building the data summary for a loaded, fully
canonical one-row dataset—where every read before line 986 succeeds—changes the
column list of the working dataset (the derived `日期` column is written into
`self.data`), so the dataset is not left exactly as before. -/
theorem c6_counterexample :
    (prepare_data_summary_data ds6 false 1).cols ≠ ds6.cols := by
  decide

/-- Claim C6 (amended): report generation never adds or removes rows and never
changes the values of any pre-existing column other than the derived bookkeeping
columns; on the abort paths (empty frame, a missing canonical column or an
unconvertible date column raising before line 986) the dataset is untouched, but
when the summary computation reaches line 986—as it does on any fully canonical
cleaned Dataset—`_prepare_data_summary` writes the derived column `日期` (and
`周次` when a date parses and the analyzed span reaches 14 days) into the
working Dataset. -/
theorem c6_frame_effect (d : Dataset) (hasUserRange : Bool) (span : Int) (c : String)
    (h1 : c ≠ "日期") (h2 : c ≠ "周次") :
    colCells (prepare_data_summary_data d hasUserRange span) c = colCells d c ∧
    (prepare_data_summary_data d hasUserRange span).rows.length = d.rows.length := by
  unfold prepare_data_summary_data
  by_cases he : d.rows.isEmpty
  · rw [if_pos he]; exact ⟨rfl, rfl⟩
  · rw [if_neg he]
    cases hro : prepareReadsOk d hasUserRange with
    | false => rw [if_pos rfl]; exact ⟨rfl, rfl⟩
    | true =>
      rw [if_neg (by simp)]
      cases hdc : dateColumnConvertible d with
      | false => rw [if_pos rfl]; exact ⟨rfl, rfl⟩
      | true =>
        rw [if_neg (by simp)]
        by_cases hdt : (colCells d "询盘时间").filterMap parseCellDate = []
        · rw [if_pos hdt]
          exact ⟨setCol_colCells_other _ "日期" _ c h1, setCol_rows_length _ _ _⟩
        · rw [if_neg hdt]
          by_cases hs : 14 ≤ span
          · rw [if_pos hs]
            constructor
            · rw [setCol_colCells_other _ "周次" _ c h2,
                setCol_colCells_other _ "日期" _ c h1]
            · rw [setCol_rows_length, setCol_rows_length]
          · rw [if_neg hs]
            exact ⟨setCol_colCells_other _ "日期" _ c h1, setCol_rows_length _ _ _⟩

/-- Witness for the amended C6 at the canonical one-row dataset and the
untouched `客户名称` column. -/
theorem c6_frame_effect_witness :
    ("客户名称" ≠ "日期" ∧ "客户名称" ≠ "周次") ∧
    (colCells (prepare_data_summary_data ds6 false 1) "客户名称" =
       colCells ds6 "客户名称" ∧
     (prepare_data_summary_data ds6 false 1).rows.length = ds6.rows.length) :=
  ⟨⟨by decide, by decide⟩, c6_frame_effect ds6 false 1 "客户名称" (by decide) (by decide)⟩

/-- Input frame for the conversion-funnel empty-window counterexample. -/
def ds7 : Dataset :=
  ⟨["跟进等级", "询盘时间"],
   [[("跟进等级", Cell.str "B"), ("询盘时间", Cell.str "1970/01/05")]]⟩

/-- Claim C7 counterexample: a dataset with both required columns whose only row
lies outside the 14-day window has zero A-grade records in the window, yet the
funnel detector emits nothing at all (the early return on an empty window), in
particular no `no_a_level` alert. -/
theorem c7_counterexample :
    ("跟进等级" ∈ ds7.cols ∧ "询盘时间" ∈ ds7.cols) ∧
    (∀ r ∈ recentRows14 (86400 * 365) ds7,
      cellEqStr (rowGet r "跟进等级") "A" = false) ∧
    check_conversion_funnel (86400 * 365) ds7 = [] := by
  decide

/-- Claim C7 (amended): when the dataset has the grade and inquiry-time columns,
at least one record lies within the last 14 days, and none of the records in that
window has grade `A`, the funnel detector emits a `no_a_level` alert with priority
high. -/
theorem c7_no_a_level (now : Int) (d : Dataset)
    (hc : "跟进等级" ∈ d.cols ∧ "询盘时间" ∈ d.cols)
    (hne : recentRows14 now d ≠ [])
    (hA : ∀ r ∈ recentRows14 now d, cellEqStr (rowGet r "跟进等级") "A" = false) :
    Alert.mk "no_a_level" "high" ∈ check_conversion_funnel now d := by
  unfold check_conversion_funnel
  rw [if_pos hc]
  have hlen : ¬((recentRows14 now d).length = 0) := by
    simpa [List.length_eq_zero] using hne
  rw [if_neg hlen]
  have hcnt : ((recentRows14 now d).filter
      (fun r => cellEqStr (rowGet r "跟进等级") "A")).length = 0 := by
    rw [List.length_eq_zero, List.filter_eq_nil_iff]
    intro r hr
    simp [hA r hr]
  simp [hcnt, List.mem_append]

/-- Witness frame for the amended C7 statement. -/
def ds7w : Dataset :=
  ⟨["跟进等级", "询盘时间"],
   [[("跟进等级", Cell.str "B"), ("询盘时间", Cell.str "1970/01/15")]]⟩

/-- Witness for the amended C7 at a one-row in-window dataset with no A grade. -/
theorem c7_no_a_level_witness :
    (("跟进等级" ∈ ds7w.cols ∧ "询盘时间" ∈ ds7w.cols) ∧
     recentRows14 (86400 * 20) ds7w ≠ [] ∧
     (∀ r ∈ recentRows14 (86400 * 20) ds7w,
       cellEqStr (rowGet r "跟进等级") "A" = false)) ∧
    Alert.mk "no_a_level" "high" ∈ check_conversion_funnel (86400 * 20) ds7w :=
  ⟨⟨⟨by decide, by decide⟩, by decide, by decide⟩,
   c7_no_a_level (86400 * 20) ds7w ⟨by decide, by decide⟩ (by decide) (by decide)⟩

/-- Claim C8: for a record with a non-null, parseable `last_follow_up_time` whose
grade is neither `X` nor `A`, a `long_term_unfollow` alert is emitted exactly when
the elapsed days (the floor-valued `.days` of now minus the date) exceed 5, with
priority high exactly when they exceed 7 and medium exactly for 6 or 7 days. -/
theorem unfollowRowAlert_eq (now : Int) (r : Row) (t : Ymd)
    (hp : parseCellDate (rowGet r "最后跟进时间") = some t)
    (hx : cellEqStr (rowGet r "跟进等级") "X" = false)
    (ha : cellEqStr (rowGet r "跟进等级") "A" = false) :
    unfollowRowAlert now r =
      (if 5 < Int.fdiv (now - dateSec t) 86400 then
        some (Alert.mk "long_term_unfollow"
          (if 7 < Int.fdiv (now - dateSec t) 86400 then "high" else "medium"))
      else none) := by
  have hnn : rowGet r "最后跟进时间" ≠ Cell.null := by
    intro hnull
    rw [hnull] at hp
    simp [parseCellDate] at hp
  simp only [unfollowRowAlert]
  rw [if_pos ⟨hnn, by simp [hx, ha]⟩, hp]

theorem c8_long_term_unfollow (now : Int) (r : Row) (t : Ymd)
    (hp : parseCellDate (rowGet r "最后跟进时间") = some t)
    (hx : cellEqStr (rowGet r "跟进等级") "X" = false)
    (ha : cellEqStr (rowGet r "跟进等级") "A" = false) :
    ((unfollowRowAlert now r).isSome ↔ 5 < Int.fdiv (now - dateSec t) 86400) ∧
    (∀ a, unfollowRowAlert now r = some a →
      a.atype = "long_term_unfollow" ∧
      (a.priority = "high" ↔ 7 < Int.fdiv (now - dateSec t) 86400) ∧
      (a.priority = "medium" ↔
        (Int.fdiv (now - dateSec t) 86400 = 6 ∨ Int.fdiv (now - dateSec t) 86400 = 7))) := by
  rw [unfollowRowAlert_eq now r t hp hx ha]
  by_cases h5 : 5 < Int.fdiv (now - dateSec t) 86400
  · rw [if_pos h5]
    refine ⟨by simpa using h5, ?_⟩
    intro a haeq
    have hav : Alert.mk "long_term_unfollow"
        (if 7 < Int.fdiv (now - dateSec t) 86400 then "high" else "medium") = a :=
      Option.some_injective _ haeq
    subst hav
    by_cases h7 : 7 < Int.fdiv (now - dateSec t) 86400
    · rw [if_pos h7]
      refine ⟨rfl, ⟨fun _ => h7, fun _ => rfl⟩, ?_⟩
      constructor
      · intro hme; exact absurd hme (by decide)
      · intro h67; omega
    · rw [if_neg h7]
      refine ⟨rfl, ?_, ?_⟩
      · constructor
        · intro hme; exact absurd hme (by decide)
        · intro hcon; exact absurd hcon h7
      · constructor
        · intro _; omega
        · intro _; rfl
  · rw [if_neg h5]
    refine ⟨by simpa using h5, ?_⟩
    intro a haeq
    exact absurd haeq (by simp)

/-- Witness row and time for C8: last follow-up on 1970-01-10 and a current time
11 days later, yielding a high-priority overdue alert. -/
def unfollowWitnessRow : Row :=
  [("最后跟进时间", Cell.str "1970/01/10"), ("跟进等级", Cell.str "B")]

/-- Witness for C8 at that row, 11 elapsed days. -/
theorem c8_long_term_unfollow_witness :
    (parseCellDate (rowGet unfollowWitnessRow "最后跟进时间") = some ⟨1970, 1, 10⟩ ∧
     cellEqStr (rowGet unfollowWitnessRow "跟进等级") "X" = false ∧
     cellEqStr (rowGet unfollowWitnessRow "跟进等级") "A" = false) ∧
    (((unfollowRowAlert (86400 * 20 + 3600) unfollowWitnessRow).isSome ↔
        5 < Int.fdiv ((86400 * 20 + 3600) - dateSec ⟨1970, 1, 10⟩) 86400) ∧
     (∀ a, unfollowRowAlert (86400 * 20 + 3600) unfollowWitnessRow = some a →
       a.atype = "long_term_unfollow" ∧
       (a.priority = "high" ↔ 7 < Int.fdiv ((86400 * 20 + 3600) - dateSec ⟨1970, 1, 10⟩) 86400) ∧
       (a.priority = "medium" ↔
         (Int.fdiv ((86400 * 20 + 3600) - dateSec ⟨1970, 1, 10⟩) 86400 = 6 ∨
          Int.fdiv ((86400 * 20 + 3600) - dateSec ⟨1970, 1, 10⟩) 86400 = 7)))) :=
  ⟨⟨by decide, by decide, by decide⟩,
   c8_long_term_unfollow (86400 * 20 + 3600) unfollowWitnessRow ⟨1970, 1, 10⟩
     (by decide) (by decide) (by decide)⟩

theorem stableInsertBy_middle {α : Type} (key : α → Int) (a : α) :
    ∀ (X Y : List α), (∀ x ∈ X, key x < key a) → (∀ y ∈ Y, key a ≤ key y) →
      stableInsertBy key a (X ++ Y) = X ++ a :: Y := by
  intro X
  induction X with
  | nil =>
    intro Y _ hY
    cases Y with
    | nil => rfl
    | cons y ys =>
      simp only [List.nil_append, stableInsertBy]
      rw [if_pos (hY y (List.mem_cons_self y ys))]
  | cons x xs ih =>
    intro Y hX hY
    simp only [List.cons_append, stableInsertBy]
    rw [if_neg (not_le.mpr (hX x (List.mem_cons_self x xs)))]
    have hrec := ih Y (fun z hz => hX z (List.mem_cons_of_mem x hz)) hY
    simpa using hrec

theorem stableInsertBy_front {α : Type} (key : α → Int) (a : α) (Y : List α)
    (hY : ∀ y ∈ Y, key a ≤ key y) :
    stableInsertBy key a Y = a :: Y := by
  have h := stableInsertBy_middle key a [] Y (by simp) hY
  simpa using h

theorem alertKey_cases (a : Alert) :
    alertKey a = 0 ∨ alertKey a = 1 ∨ alertKey a = 2 ∨ alertKey a = 3 := by
  unfold alertKey priorityKey
  repeat' split
  all_goals simp

theorem sortAlerts_decomp (l : List Alert) :
    sortAlerts l =
      l.filter (fun a => alertKey a == 0) ++ l.filter (fun a => alertKey a == 1) ++
      l.filter (fun a => alertKey a == 2) ++ l.filter (fun a => alertKey a == 3) := by
  induction l with
  | nil => rfl
  | cons a l ih =>
    have hstep : sortAlerts (a :: l) =
        stableInsertBy (fun x => (alertKey x : Int)) a (sortAlerts l) := rfl
    rw [hstep, ih]
    have hm0 : ∀ x ∈ l.filter (fun a => alertKey a == 0), alertKey x = 0 := by
      intro x hx; simpa using (List.mem_filter.mp hx).2
    have hm1 : ∀ x ∈ l.filter (fun a => alertKey a == 1), alertKey x = 1 := by
      intro x hx; simpa using (List.mem_filter.mp hx).2
    have hm2 : ∀ x ∈ l.filter (fun a => alertKey a == 2), alertKey x = 2 := by
      intro x hx; simpa using (List.mem_filter.mp hx).2
    have hm3 : ∀ x ∈ l.filter (fun a => alertKey a == 3), alertKey x = 3 := by
      intro x hx; simpa using (List.mem_filter.mp hx).2
    rcases alertKey_cases a with h | h | h | h
    · have hins := stableInsertBy_front (fun x => (alertKey x : Int)) a
        (l.filter (fun a => alertKey a == 0) ++ l.filter (fun a => alertKey a == 1) ++
         l.filter (fun a => alertKey a == 2) ++ l.filter (fun a => alertKey a == 3))
        (by
          intro y _
          show (alertKey a : Int) ≤ (alertKey y : Int)
          rw [h]
          exact_mod_cast Nat.zero_le _)
      rw [hins]
      simp [List.filter_cons, h]
    · have harg :
          l.filter (fun a => alertKey a == 0) ++ l.filter (fun a => alertKey a == 1) ++
            l.filter (fun a => alertKey a == 2) ++ l.filter (fun a => alertKey a == 3) =
          l.filter (fun a => alertKey a == 0) ++
            (l.filter (fun a => alertKey a == 1) ++
              (l.filter (fun a => alertKey a == 2) ++ l.filter (fun a => alertKey a == 3))) := by
        simp [List.append_assoc]
      rw [harg]
      have hins := stableInsertBy_middle (fun x => (alertKey x : Int)) a
        (l.filter (fun a => alertKey a == 0))
        (l.filter (fun a => alertKey a == 1) ++
          (l.filter (fun a => alertKey a == 2) ++ l.filter (fun a => alertKey a == 3)))
        (by
          intro x hx
          show (alertKey x : Int) < (alertKey a : Int)
          rw [hm0 x hx, h]
          decide)
        (by
          intro y hy
          show (alertKey a : Int) ≤ (alertKey y : Int)
          rw [h]
          rcases List.mem_append.mp hy with hy1 | hy23
          · rw [hm1 y hy1]
          · rcases List.mem_append.mp hy23 with hy2 | hy3
            · rw [hm2 y hy2]; decide
            · rw [hm3 y hy3]; decide)
      rw [hins]
      simp [List.filter_cons, h, List.append_assoc]
    · have harg :
          l.filter (fun a => alertKey a == 0) ++ l.filter (fun a => alertKey a == 1) ++
            l.filter (fun a => alertKey a == 2) ++ l.filter (fun a => alertKey a == 3) =
          (l.filter (fun a => alertKey a == 0) ++ l.filter (fun a => alertKey a == 1)) ++
            (l.filter (fun a => alertKey a == 2) ++ l.filter (fun a => alertKey a == 3)) := by
        simp [List.append_assoc]
      rw [harg]
      have hins := stableInsertBy_middle (fun x => (alertKey x : Int)) a
        (l.filter (fun a => alertKey a == 0) ++ l.filter (fun a => alertKey a == 1))
        (l.filter (fun a => alertKey a == 2) ++ l.filter (fun a => alertKey a == 3))
        (by
          intro x hx
          show (alertKey x : Int) < (alertKey a : Int)
          rw [h]
          rcases List.mem_append.mp hx with hx0 | hx1
          · rw [hm0 x hx0]; decide
          · rw [hm1 x hx1]; decide)
        (by
          intro y hy
          show (alertKey a : Int) ≤ (alertKey y : Int)
          rw [h]
          rcases List.mem_append.mp hy with hy2 | hy3
          · rw [hm2 y hy2]
          · rw [hm3 y hy3]; decide)
      rw [hins]
      simp [List.filter_cons, h, List.append_assoc]
    · have harg :
          l.filter (fun a => alertKey a == 0) ++ l.filter (fun a => alertKey a == 1) ++
            l.filter (fun a => alertKey a == 2) ++ l.filter (fun a => alertKey a == 3) =
          (l.filter (fun a => alertKey a == 0) ++ l.filter (fun a => alertKey a == 1) ++
            l.filter (fun a => alertKey a == 2)) ++ l.filter (fun a => alertKey a == 3) := by
        simp [List.append_assoc]
      rw [harg]
      have hins := stableInsertBy_middle (fun x => (alertKey x : Int)) a
        (l.filter (fun a => alertKey a == 0) ++ l.filter (fun a => alertKey a == 1) ++
          l.filter (fun a => alertKey a == 2))
        (l.filter (fun a => alertKey a == 3))
        (by
          intro x hx
          show (alertKey x : Int) < (alertKey a : Int)
          rw [h]
          rcases List.mem_append.mp hx with hx01 | hx2
          · rcases List.mem_append.mp hx01 with hx0 | hx1
            · rw [hm0 x hx0]; decide
            · rw [hm1 x hx1]; decide
          · rw [hm2 x hx2]; decide)
        (by
          intro y hy
          show (alertKey a : Int) ≤ (alertKey y : Int)
          rw [h, hm3 y hy])
      rw [hins]
      simp [List.filter_cons, h, List.append_assoc]

theorem check_high_value_priority (d : Dataset) :
    ∀ a ∈ check_high_value_customers d,
      a.priority = "high" ∨ a.priority = "medium" ∨ a.priority = "low" := by
  intro a ha
  unfold check_high_value_customers at ha
  split at ha
  · rcases List.mem_append.mp ha with h1 | h2
    · unfold highValueRowAlerts at h1
      rcases List.mem_filterMap.mp h1 with ⟨r, _, hfr⟩
      rcases Option.map_eq_some'.mp hfr with ⟨kw, _, hkw⟩
      rw [← hkw]
      exact Or.inl rfl
    · split at h2
      · unfold levelUpgradedAlerts at h2
        rcases List.mem_map.mp h2 with ⟨r, _, hfr⟩
        rw [← hfr]
        exact Or.inl rfl
      · cases h2
  · cases ha

theorem check_low_quality_priority (d : Dataset) :
    ∀ a ∈ check_low_quality_inquiries d,
      a.priority = "high" ∨ a.priority = "medium" ∨ a.priority = "low" := by
  have hpart : ∀ x ∈ lowQualityRowAlerts d, x.priority = "low" := by
    intro x hx
    unfold lowQualityRowAlerts at hx
    rcases List.mem_filterMap.mp hx with ⟨r, _, hfr⟩
    rcases Option.map_eq_some'.mp hfr with ⟨kw, _, hkw⟩
    rw [← hkw]
  intro a ha
  unfold check_low_quality_inquiries at ha
  split at ha
  · split at ha
    · rcases List.mem_append.mp ha with h1 | h2
      · exact Or.inr (Or.inr (hpart a h1))
      · rcases List.mem_singleton.mp h2 with rfl
        exact Or.inr (Or.inl rfl)
    · exact Or.inr (Or.inr (hpart a ha))
  · cases ha

theorem unfollowRowAlert_priority (now : Int) (r : Row) (a : Alert)
    (h : unfollowRowAlert now r = some a) :
    a.priority = "high" ∨ a.priority = "medium" := by
  unfold unfollowRowAlert at h
  split at h
  · split at h
    · split at h
      · injection h with h2
        subst h2
        split
        · exact Or.inl rfl
        · exact Or.inr rfl
      · cases h
    · cases h
  · cases h

theorem check_long_term_priority (now : Int) (d : Dataset) :
    ∀ a ∈ check_long_term_unfollow now d,
      a.priority = "high" ∨ a.priority = "medium" ∨ a.priority = "low" := by
  intro a ha
  unfold check_long_term_unfollow at ha
  split at ha
  · rcases List.mem_append.mp ha with h1 | h2
    · rcases List.mem_filterMap.mp h1 with ⟨r, _, hfr⟩
      rcases unfollowRowAlert_priority now r a hfr with h | h
      · exact Or.inl h
      · exact Or.inr (Or.inl h)
    · split at h2
      · unfold unreadMessageAlerts at h2
        rcases List.mem_filterMap.mp h2 with ⟨r, _, hfr⟩
        split at hfr
        · injection hfr with h3
          rw [← h3]
          exact Or.inr (Or.inl rfl)
        · cases hfr
      · cases h2
  · cases ha

theorem check_regional_priority (now : Int) (d : Dataset) :
    ∀ a ∈ check_regional_trends now d,
      a.priority = "high" ∨ a.priority = "medium" ∨ a.priority = "low" := by
  intro a ha
  unfold check_regional_trends at ha
  split at ha
  · rcases List.mem_append.mp ha with h1 | h2
    · unfold regionalHotspotAlerts at h1
      rcases List.mem_filterMap.mp h1 with ⟨p, _, hfp⟩
      split at hfp
      · split at hfp
        · injection hfp with h3
          rw [← h3]
          exact Or.inl rfl
        · cases hfp
      · cases hfp
    · split at h2
      · unfold emergingMarketAlerts at h2
        rcases List.mem_filterMap.mp h2 with ⟨p, _, hfp⟩
        split at hfp
        · split at hfp
          · split at hfp
            · injection hfp with h3
              rw [← h3]
              exact Or.inl rfl
            · cases hfp
          · cases hfp
        · cases hfp
      · cases h2
  · cases ha

theorem check_product_priority (now : Int) (d : Dataset) :
    ∀ a ∈ check_product_trends now d,
      a.priority = "high" ∨ a.priority = "medium" ∨ a.priority = "low" := by
  intro a ha
  unfold check_product_trends at ha
  split at ha
  · rcases List.mem_append.mp ha with h1 | h2
    · unfold hotProductAlerts at h1
      rcases List.mem_filterMap.mp h1 with ⟨p, _, hfp⟩
      split at hfp
      · injection hfp with h3
        rw [← h3]
        exact Or.inl rfl
      · cases hfp
    · split at h2
      · split at h2
        · rcases List.mem_singleton.mp h2 with rfl
          exact Or.inr (Or.inl rfl)
        · cases h2
      · cases h2
  · cases ha

theorem check_funnel_priority (now : Int) (d : Dataset) :
    ∀ a ∈ check_conversion_funnel now d,
      a.priority = "high" ∨ a.priority = "medium" ∨ a.priority = "low" := by
  intro a ha
  unfold check_conversion_funnel at ha
  split at ha
  · split at ha
    · cases ha
    · rcases List.mem_append.mp ha with h12 | h3
      · rcases List.mem_append.mp h12 with h1 | h2
        · split at h1
          · rcases List.mem_singleton.mp h1 with rfl
            exact Or.inl rfl
          · cases h1
        · split at h2
          · rcases List.mem_singleton.mp h2 with rfl
            exact Or.inl rfl
          · cases h2
      · split at h3
        · rcases List.mem_singleton.mp h3 with rfl
          exact Or.inr (Or.inl rfl)
        · cases h3
  · cases ha

theorem emitted_priority (now : Int) (d : Dataset) :
    ∀ a ∈ emittedAlerts now d,
      a.priority = "high" ∨ a.priority = "medium" ∨ a.priority = "low" := by
  intro a ha
  unfold emittedAlerts at ha
  rcases List.mem_append.mp ha with h15 | h6
  · rcases List.mem_append.mp h15 with h14 | h5
    · rcases List.mem_append.mp h14 with h13 | h4
      · rcases List.mem_append.mp h13 with h12 | h3
        · rcases List.mem_append.mp h12 with h1 | h2
          · exact check_high_value_priority d a h1
          · exact check_low_quality_priority d a h2
        · exact check_long_term_priority now d a h3
      · exact check_regional_priority now d a h4
    · exact check_product_priority now d a h5
  · exact check_funnel_priority now d a h6

theorem priorityKey_beq_zero (p : String) : (priorityKey p == 0) = (p == "high") := by
  unfold priorityKey
  repeat' split
  all_goals simp_all

theorem priorityKey_beq_one (p : String) : (priorityKey p == 1) = (p == "medium") := by
  unfold priorityKey
  repeat' split
  all_goals simp_all

theorem priorityKey_beq_two (p : String) : (priorityKey p == 2) = (p == "low") := by
  unfold priorityKey
  repeat' split
  all_goals simp_all

/-- Claim C1: `get_smart_alerts` returns the detector-emitted alerts sorted by
priority with high before medium before low, each tier keeping the detectors'
emission order (the high/medium/low filters of the emission list, concatenated);
in particular for emitted priorities [medium, high, low, high] the output order is
[high, high, medium, low] with the two high alerts keeping their relative order,
witnessed by their distinct type tags. -/
theorem c1_alert_sort_stability :
    (∀ (now : Int) (d : Dataset),
      get_smart_alerts now d =
        (emittedAlerts now d).filter (fun a => a.priority == "high") ++
        (emittedAlerts now d).filter (fun a => a.priority == "medium") ++
        (emittedAlerts now d).filter (fun a => a.priority == "low")) ∧
    sortAlerts
        [Alert.mk "t1" "medium", Alert.mk "t2" "high",
         Alert.mk "t3" "low", Alert.mk "t4" "high"] =
      [Alert.mk "t2" "high", Alert.mk "t4" "high",
       Alert.mk "t1" "medium", Alert.mk "t3" "low"] := by
  refine ⟨?_, by decide⟩
  intro now d
  have hdec := sortAlerts_decomp (emittedAlerts now d)
  have hpr := emitted_priority now d
  have e0 : (emittedAlerts now d).filter (fun a => alertKey a == 0) =
      (emittedAlerts now d).filter (fun a => a.priority == "high") :=
    List.filter_congr (fun a _ => priorityKey_beq_zero a.priority)
  have e1 : (emittedAlerts now d).filter (fun a => alertKey a == 1) =
      (emittedAlerts now d).filter (fun a => a.priority == "medium") :=
    List.filter_congr (fun a _ => priorityKey_beq_one a.priority)
  have e2 : (emittedAlerts now d).filter (fun a => alertKey a == 2) =
      (emittedAlerts now d).filter (fun a => a.priority == "low") :=
    List.filter_congr (fun a _ => priorityKey_beq_two a.priority)
  have e3 : (emittedAlerts now d).filter (fun a => alertKey a == 3) = [] := by
    rw [List.filter_eq_nil_iff]
    intro a ha
    rcases hpr a ha with h | h | h
    all_goals simp [alertKey, priorityKey, h]
  unfold get_smart_alerts
  rw [hdec, e0, e1, e2, e3, List.append_nil]

/-! ## Idempotence of cleaning (C4) -/

/-- A date cell of an already-cleaned frame: the canonical `"YYYY/MM/DD"` string
or the empty string. -/
def isCanonicalOrEmpty (c : Cell) : Bool :=
  match c with
  | Cell.str s => s == "" || isCanonicalDateStr s
  | _ => false

/-- An already-cleaned Dataset: rows keyed exactly by the column list, no missing
values, date columns holding canonical date strings or the empty string, and no
exact-duplicate rows. -/
def CleanedDataset (d : Dataset) : Prop :=
  (∀ r ∈ d.rows, r.map Prod.fst = d.cols) ∧
  (∀ r ∈ d.rows, ∀ p ∈ r,
    p.2 ≠ Cell.null ∧ (p.1 ∈ timeCols → isCanonicalOrEmpty p.2 = true)) ∧
  d.rows.Nodup

/-- The effect on a single key-cell pair of applying a per-cell function at each
column of a list, the pair-level view of a sequence of `colApply` steps. -/
def pairApply (f : Cell → Cell) (cs : List String) (p : String × Cell) : String × Cell :=
  cs.foldl (fun q c => if q.1 == c then (q.1, f q.2) else q) p

theorem pairApply_fst (f : Cell → Cell) :
    ∀ (cs : List String) (p : String × Cell), (pairApply f cs p).1 = p.1 := by
  intro cs
  induction cs with
  | nil => intro p; rfl
  | cons c cs ih =>
    intro p
    unfold pairApply
    rw [List.foldl_cons]
    by_cases hc : (p.1 == c) = true
    · rw [if_pos hc]
      exact ih (p.1, f p.2)
    · rw [if_neg hc]
      exact ih p

theorem pairApply_fixed (f : Cell → Cell) :
    ∀ (cs : List String) (p : String × Cell), f p.2 = p.2 → pairApply f cs p = p := by
  intro cs
  induction cs with
  | nil => intro p _; rfl
  | cons c cs ih =>
    intro p hfix
    unfold pairApply
    rw [List.foldl_cons]
    by_cases hc : (p.1 == c) = true
    · rw [if_pos hc, hfix]
      exact ih p hfix
    · rw [if_neg hc]
      exact ih p hfix

theorem pairApply_cons_pos (f : Cell → Cell) (c : String) (cs : List String)
    (p : String × Cell) (hc : (p.1 == c) = true) :
    pairApply f (c :: cs) p = pairApply f cs (p.1, f p.2) := by
  unfold pairApply
  rw [List.foldl_cons, if_pos hc]

theorem pairApply_cons_neg (f : Cell → Cell) (c : String) (cs : List String)
    (p : String × Cell) (hc : (p.1 == c) = false) :
    pairApply f (c :: cs) p = pairApply f cs p := by
  unfold pairApply
  rw [List.foldl_cons, if_neg (by simp [hc])]

theorem cleanDateCellFun_of_str (cells : List Cell)
    (h : ∀ c ∈ cells, ∃ s, c = Cell.str s) :
    cleanDateCellFun cells = coerceCellFun := by
  cases cells with
  | nil => rfl
  | cons c cs =>
    obtain ⟨s, rfl⟩ := h c (List.mem_cons_self c cs)
    have hnum : isNumericDtype (Cell.str s :: cs) = false := by
      simp [isNumericDtype]
    unfold cleanDateCellFun
    rw [hnum]
    simp

theorem rowGet_mapCol_other (k : String) (f : Cell → Cell) (c : String) (h : c ≠ k) :
    ∀ r : Row, rowGet (r.map (fun p => if p.1 == k then (p.1, f p.2) else p)) c = rowGet r c := by
  intro r
  induction r with
  | nil => rfl
  | cons p r ih =>
    obtain ⟨a, w⟩ := p
    have hpair : (if (a, w).1 == k then ((a, w).1, f (a, w).2) else (a, w)) =
        (a, if (a == k) = true then f w else w) := by
      by_cases hk : (a == k) = true <;> simp [hk]
    rw [List.map_cons, hpair, rowGet_cons, rowGet_cons]
    by_cases hc : (a == c) = true
    · have hac : a = c := by simpa using hc
      have hak : (a == k) = false := by
        subst hac
        simpa using h
      rw [if_pos hc, if_pos hc]
      simp [hak]
    · rw [if_neg hc, if_neg hc]
      exact ih

theorem colCells_colApply_other (d : Dataset) (k : String) (f : Cell → Cell)
    (c : String) (h : c ≠ k) :
    colCells (colApply d k f) c = colCells d c := by
  simp only [colApply, colCells, List.map_map]
  exact List.map_congr_left (fun r _ => rowGet_mapCol_other k f c h r)

theorem rowGet_of_keys :
    ∀ (r : Row) (cols : List String) (c : String),
      r.map Prod.fst = cols → c ∈ cols → (c, rowGet r c) ∈ r := by
  intro r
  induction r with
  | nil =>
    intro cols c hk hc
    rw [← hk] at hc
    cases hc
  | cons p r ih =>
    intro cols c hk hc
    obtain ⟨a, w⟩ := p
    rw [rowGet_cons]
    by_cases hac : (a == c) = true
    · have : a = c := by simpa using hac
      subst this
      rw [if_pos hac]
      exact List.mem_cons_self _ _
    · rw [if_neg hac]
      have hcm : c ∈ r.map Prod.fst := by
        rw [← hk] at hc
        rcases List.mem_cons.mp hc with hce | hcm
        · exact absurd (by rw [hce]; simp) hac
        · exact hcm
      exact List.mem_cons_of_mem _ (ih _ c rfl hcm)

theorem clean_dates_fold_coerce :
    ∀ (cs : List String) (d : Dataset), cs.Nodup →
      (∀ c ∈ cs, ∀ cell ∈ colCells d c, ∃ s, cell = Cell.str s) →
      cs.foldl (fun acc c => colApply acc c (cleanDateCellFun (colCells acc c))) d =
      cs.foldl (fun acc c => colApply acc c coerceCellFun) d := by
  intro cs
  induction cs with
  | nil => intro d _ _; rfl
  | cons c cs ih =>
    intro d hnd hgood
    simp only [List.foldl_cons]
    rw [cleanDateCellFun_of_str (colCells d c) (hgood c (List.mem_cons_self c cs))]
    apply ih
    · exact (List.nodup_cons.mp hnd).2
    · intro c2 hc2 cell hcell
      have hne : c2 ≠ c := by
        intro heq
        exact (List.nodup_cons.mp hnd).1 (heq ▸ hc2)
      rw [colCells_colApply_other d c coerceCellFun c2 hne] at hcell
      exact hgood c2 (List.mem_cons_of_mem c hc2) cell hcell

theorem fold_colApply_pair (f : Cell → Cell) :
    ∀ (cs : List String) (d : Dataset),
      cs.foldl (fun acc c => colApply acc c f) d =
      ⟨d.cols, d.rows.map (fun r => r.map (pairApply f cs))⟩ := by
  intro cs
  induction cs with
  | nil =>
    intro d
    have : ∀ r : Row, r.map (pairApply f []) = r := by
      intro r
      have : ∀ p ∈ r, pairApply f [] p = p := fun p _ => rfl
      exact (List.map_congr_left this).trans (List.map_id r)
    cases d with
    | mk cols rows =>
      simp only [List.foldl_nil]
      congr 1
      exact ((List.map_congr_left (fun r _ => this r)).trans (List.map_id rows)).symm
  | cons c cs ih =>
    intro d
    simp only [List.foldl_cons]
    rw [ih]
    simp only [colApply, List.map_map]
    congr 1
    refine List.map_congr_left ?_
    intro r _
    simp only [Function.comp, List.map_map]
    refine List.map_congr_left ?_
    intro p _
    rw [pairApply]
    rw [List.foldl_cons]
    rfl

theorem pairApply_cons_pos_pair (f : Cell → Cell) (c : String) (cs : List String)
    (a : String) (w : Cell) (hc : (a == c) = true) :
    pairApply f (c :: cs) (a, w) = pairApply f cs (a, f w) := by
  unfold pairApply
  rw [List.foldl_cons, if_pos hc]

theorem Dataset_cols_mk (cols : List String) (rows : List Row) :
    (Dataset.mk cols rows).cols = cols := rfl

theorem Dataset_rows_mk (cols : List String) (rows : List Row) :
    (Dataset.mk cols rows).rows = rows := rfl

theorem pair_roundtrip :
    ∀ (cs : List String) (p : String × Cell),
      p.2 ≠ Cell.null → (p.1 ∈ cs → isCanonicalOrEmpty p.2 = true) →
      pairApply convertCellFun cs
        ((pairApply coerceCellFun cs p).1, fillnaCell (pairApply coerceCellFun cs p).2) = p := by
  intro cs
  induction cs with
  | nil =>
    intro p hnn _
    obtain ⟨a, w⟩ := p
    show ((a, fillnaCell w) : String × Cell) = (a, w)
    unfold fillnaCell
    rw [if_neg hnn]
  | cons c cs ih =>
    intro p hnn hcan
    obtain ⟨a, w⟩ := p
    by_cases hpc : (a == c) = true
    · have hac : a = c := by simpa using hpc
      have hco : isCanonicalOrEmpty w = true := by
        refine hcan ?_
        show a ∈ c :: cs
        rw [hac]
        exact List.mem_cons_self c cs
      cases w with
      | str s =>
        have hse : (s == "") = true ∨ isCanonicalDateStr s = true := by
          simpa [isCanonicalOrEmpty] using hco
        rcases hse with hse | hcanon
        · have hs : s = "" := by simpa using hse
          subst hs
          have hcoe : coerceCellFun (Cell.str "") = Cell.null := by
            simp [coerceCellFun, parseCellDate]
          have hcfix : coerceCellFun Cell.null = Cell.null := by
            simp [coerceCellFun, parseCellDate]
          rw [pairApply_cons_pos_pair coerceCellFun c cs a (Cell.str "") hpc, hcoe,
            pairApply_fixed coerceCellFun cs (a, Cell.null) hcfix]
          have hfill : fillnaCell Cell.null = Cell.str "" := by simp [fillnaCell]
          show pairApply convertCellFun (c :: cs) (a, fillnaCell Cell.null) = (a, Cell.str "")
          rw [hfill, pairApply_cons_pos_pair convertCellFun c cs a (Cell.str "") hpc]
          have hconv : convertCellFun (Cell.str "") = Cell.str "" := by
            simp [convertCellFun, parseCellDate]
          rw [hconv]
          exact pairApply_fixed convertCellFun cs (a, Cell.str "") hconv
        · have hparse : ∃ t, parseDate s = some t ∧ formatYmd t = s := by
            unfold isCanonicalDateStr at hcanon
            cases hps : parseDate s with
            | none => rw [hps] at hcanon; cases hcanon
            | some t =>
              rw [hps] at hcanon
              exact ⟨t, rfl, by simpa using hcanon⟩
          obtain ⟨t, hps, hfmt⟩ := hparse
          have hsne : ¬(s = "") := by
            intro hs
            subst hs
            rw [show parseDate "" = none from rfl] at hps
            cases hps
          have hcoe : coerceCellFun (Cell.str s) = Cell.date t := by
            simp [coerceCellFun, parseCellDate, hsne, hps]
          have hconvd : convertCellFun (Cell.date t) = Cell.str s := by
            simp [convertCellFun, parseCellDate, hfmt]
          have hconvs : convertCellFun (Cell.str s) = Cell.str s := by
            simp [convertCellFun, parseCellDate, hsne, hps, hfmt]
          rw [pairApply_cons_pos_pair coerceCellFun c cs a (Cell.str s) hpc, hcoe,
            pairApply_fixed coerceCellFun cs (a, Cell.date t) rfl]
          have hfill : fillnaCell (Cell.date t) = Cell.date t := by simp [fillnaCell]
          show pairApply convertCellFun (c :: cs) (a, fillnaCell (Cell.date t)) = (a, Cell.str s)
          rw [hfill, pairApply_cons_pos_pair convertCellFun c cs a (Cell.date t) hpc, hconvd]
          exact pairApply_fixed convertCellFun cs (a, Cell.str s) hconvs
      | num x => simp [isCanonicalOrEmpty] at hco
      | date t => simp [isCanonicalOrEmpty] at hco
      | null => exact absurd rfl hnn
    · have hc2 : ((a, w).1 == c) = false := by simpa using hpc
      rw [pairApply_cons_neg coerceCellFun c cs (a, w) hc2]
      have hfst : (pairApply coerceCellFun cs (a, w)).1 = a := pairApply_fst _ cs (a, w)
      rw [pairApply_cons_neg convertCellFun c cs _ (by simpa [hfst] using hpc)]
      exact ih (a, w) hnn (fun hmem => hcan (List.mem_cons_of_mem c hmem))

theorem row_roundtrip (cs : List String) (r : Row)
    (hr : ∀ p ∈ r, p.2 ≠ Cell.null ∧ (p.1 ∈ cs → isCanonicalOrEmpty p.2 = true)) :
    ((r.map (pairApply coerceCellFun cs)).map (fun q => (q.1, fillnaCell q.2))).map
      (pairApply convertCellFun cs) = r := by
  rw [List.map_map, List.map_map]
  have hpt : ∀ p ∈ r,
      (pairApply convertCellFun cs ∘
        ((fun q : String × Cell => (q.1, fillnaCell q.2)) ∘ pairApply coerceCellFun cs)) p = p := by
    intro p hp
    exact pair_roundtrip cs p (hr p hp).1 (hr p hp).2
  exact (List.map_congr_left hpt).trans (List.map_id r)

/-- Claim C4: the Data Cleaner is idempotent—on an already-cleaned Dataset (dates
in canonical `"YYYY/MM/DD"` or empty-string form, no missing values, no exact
duplicates), running `_clean_data` followed by `_convert_date_format` again yields
the identical Dataset. -/
theorem c4_cleaning_idempotent (d : Dataset) (h : CleanedDataset d) :
    convert_date_format (clean_data d) = d := by
  obtain ⟨hkeys, hcells, hnodup⟩ := h
  have hgood : ∀ c ∈ timeCols.filter (fun c => c ∈ d.cols),
      ∀ cell ∈ colCells d c, ∃ s, cell = Cell.str s := by
    intro c hcL cell hcell
    have hct : c ∈ timeCols := (List.mem_filter.mp hcL).1
    unfold colCells at hcell
    rcases List.mem_map.mp hcell with ⟨r, hrmem, hrg⟩
    have hcc : c ∈ d.cols := by simpa using (List.mem_filter.mp hcL).2
    have hpair := rowGet_of_keys r d.cols c (hkeys r hrmem) hcc
    have hco := (hcells r hrmem (c, rowGet r c) hpair).2 hct
    cases hrc : rowGet r c with
    | str s => exact ⟨s, by rw [← hrg, hrc]⟩
    | num x => rw [hrc] at hco; simp [isCanonicalOrEmpty] at hco
    | date t => rw [hrc] at hco; simp [isCanonicalOrEmpty] at hco
    | null => rw [hrc] at hco; simp [isCanonicalOrEmpty] at hco
  have hLnd : (timeCols.filter (fun c => c ∈ d.cols)).Nodup :=
    List.Nodup.filter _ (by decide)
  have h2 : clean_data_dates d =
      ⟨d.cols, d.rows.map (fun r =>
        r.map (pairApply coerceCellFun (timeCols.filter (fun c => c ∈ d.cols))))⟩ := by
    unfold clean_data_dates
    rw [clean_dates_fold_coerce _ d hLnd hgood, fold_colApply_pair]
  have h3 : pre_dedup d =
      ⟨d.cols, d.rows.map (fun r =>
        (r.map (pairApply coerceCellFun (timeCols.filter (fun c => c ∈ d.cols)))).map
          (fun q => (q.1, fillnaCell q.2)))⟩ := by
    unfold pre_dedup fillnaAll
    rw [h2]
    simp only [Dataset_cols_mk, Dataset_rows_mk, List.map_map]
    congr 1
    refine List.map_congr_left ?_
    intro r _
    simp [Function.comp, List.map_map]
  have hRT : ∀ r ∈ d.rows,
      ((r.map (pairApply coerceCellFun (timeCols.filter (fun c => c ∈ d.cols)))).map
        (fun q => (q.1, fillnaCell q.2))).map
        (pairApply convertCellFun (timeCols.filter (fun c => c ∈ d.cols))) = r := by
    intro r hrmem
    apply row_roundtrip
    intro p hp
    exact ⟨(hcells r hrmem p hp).1,
      fun hpL => (hcells r hrmem p hp).2 (List.mem_filter.mp hpL).1⟩
  have hback : ((d.rows.map (fun r =>
      (r.map (pairApply coerceCellFun (timeCols.filter (fun c => c ∈ d.cols)))).map
        (fun q => (q.1, fillnaCell q.2)))).map
      (fun r => r.map (pairApply convertCellFun (timeCols.filter (fun c => c ∈ d.cols))))) =
      d.rows := by
    rw [List.map_map]
    exact (List.map_congr_left (fun r hrmem => hRT r hrmem)).trans (List.map_id d.rows)
  have hnodM : (d.rows.map (fun r =>
      (r.map (pairApply coerceCellFun (timeCols.filter (fun c => c ∈ d.cols)))).map
        (fun q => (q.1, fillnaCell q.2)))).Nodup := by
    refine List.Nodup.of_map
      (fun r => r.map (pairApply convertCellFun (timeCols.filter (fun c => c ∈ d.cols)))) ?_
    rw [hback]
    exact hnodup
  have h5 : clean_data d = ⟨d.cols, d.rows.map (fun r =>
      (r.map (pairApply coerceCellFun (timeCols.filter (fun c => c ∈ d.cols)))).map
        (fun q => (q.1, fillnaCell q.2)))⟩ := by
    unfold clean_data dropDuplicatesRows
    rw [h3]
    simp only [Dataset_cols_mk, Dataset_rows_mk]
    congr 1
    exact dropDupsAux_of_nodup _ [] hnodM (by simp)
  rw [h5]
  have h6 : convert_date_format (⟨d.cols, d.rows.map (fun r =>
      (r.map (pairApply coerceCellFun (timeCols.filter (fun c => c ∈ d.cols)))).map
        (fun q => (q.1, fillnaCell q.2)))⟩ : Dataset) =
      ⟨d.cols, (d.rows.map (fun r =>
        (r.map (pairApply coerceCellFun (timeCols.filter (fun c => c ∈ d.cols)))).map
          (fun q => (q.1, fillnaCell q.2)))).map
        (fun r => r.map (pairApply convertCellFun (timeCols.filter (fun c => c ∈ d.cols))))⟩ := by
    unfold convert_date_format
    exact fold_colApply_pair convertCellFun _ _
  rw [h6, hback]

/-- Witness frame for C4: two cleaned rows with a canonical date, an empty date
and a plain text field. -/
def ds4w : Dataset :=
  ⟨["询盘时间", "最后跟进时间", "客户名称"],
   [[("询盘时间", Cell.str "2024/03/05"), ("最后跟进时间", Cell.str ""), ("客户名称", Cell.str "Acme")],
    [("询盘时间", Cell.str "2023/12/31"), ("最后跟进时间", Cell.str "2024/01/02"), ("客户名称", Cell.str "Beta")]]⟩

/-- Witness for C4 at a concrete two-row cleaned dataset. -/
theorem c4_cleaning_idempotent_witness :
    CleanedDataset ds4w ∧ convert_date_format (clean_data ds4w) = ds4w :=
  ⟨by unfold CleanedDataset; exact ⟨by decide, by decide, by decide⟩,
   c4_cleaning_idempotent ds4w
     (by unfold CleanedDataset; exact ⟨by decide, by decide, by decide⟩)⟩
